import Mathlib

/-!
Verification of the architecture-guardrail engine of `mcp_servers`
(`optimus_project_mcp`): the unified-diff parser and validator
(`utils.py`, `validator.py`) and the topology builder (`indexer.py`),
shallowly embedded in Lean 4.

Modelling conventions:
* Python strings are Lean `String`s; all scanning is done on `String.data`
  (lists of characters) with hand-written matchers that embed the exact
  regular expressions of the source (`re.match` anchors at the start,
  `re.search` finds the leftmost match).
* Python's `\s`, `str.strip()` and `str.splitlines()` are modelled over
  their ASCII/documented character sets.
* Python dicts are association lists that keep insertion order and unique
  keys; `{**b, **svc}` is an update-or-append fold.
* I/O is modelled by an explicit file-system oracle; fallible calls return
  `Except`.
-/

namespace Optimus

/-- Python whitespace (the characters matched by the regex class `\s` and
stripped by `str.strip()`), restricted to the ASCII range that the
repository's inputs use. -/
def isPySpace (c : Char) : Bool :=
  c = ' ' || c = '\t' || c = '\n' || c = '\x0d' || c = '\x0b' || c = '\x0c'

def isDigitC (c : Char) : Bool := '0' ≤ c && c ≤ '9'

def isAlphaC (c : Char) : Bool := ('a' ≤ c && c ≤ 'z') || ('A' ≤ c && c ≤ 'Z')

/-- The regex class `\w` (ASCII). -/
def isWordC (c : Char) : Bool := isAlphaC c || isDigitC c || c = '_'

/-- The regex class `[A-Za-z0-9_-]` used by the compose key matcher. -/
def isKeyC (c : Char) : Bool := isAlphaC c || isDigitC c || c = '_' || c = '-'

/-- `hasPref pre l`: `l` starts with `pre` (character lists). -/
def hasPref : List Char → List Char → Bool
  | [], _ => true
  | _ :: _, [] => false
  | p :: ps, c :: cs => p = c && hasPref ps cs

/-- Python `pre in hay` restricted to `hay.startswith(pre)`. -/
def strStarts (s pre : String) : Bool := hasPref pre.data s.data

/-- Python `s.endswith(suf)`. -/
def strEnds (s suf : String) : Bool := hasPref suf.data.reverse s.data.reverse

/-- `containsSub needle hay`: Python `needle in hay` on character lists. -/
def containsSub (needle : List Char) : List Char → Bool
  | [] => hasPref needle []
  | c :: t => hasPref needle (c :: t) || containsSub needle t

/-- Python `needle in hay` for strings. -/
def strContains (hay needle : String) : Bool := containsSub needle.data hay.data

def dropEndWhile (p : Char → Bool) (l : List Char) : List Char :=
  (l.reverse.dropWhile p).reverse

def stripBoth (p : Char → Bool) (l : List Char) : List Char :=
  dropEndWhile p (l.dropWhile p)

/-- Python `s.strip()` (whitespace form). -/
def pyStrip (s : String) : String := ⟨stripBoth isPySpace s.data⟩

/-- Python `s.strip(c)` for a one-character strip set. -/
def pyStripChar (c : Char) (s : String) : String := ⟨stripBoth (· = c) s.data⟩

/-- Python `s.rstrip("\n")`. -/
def pyRstripNl (s : String) : String := ⟨dropEndWhile (· = '\n') s.data⟩

/-- Python `s[n:]`. -/
def pyDrop (s : String) (n : Nat) : String := ⟨s.data.drop n⟩

/-- Python `s.lower()` (ASCII). -/
def pyLower (s : String) : String := ⟨s.data.map Char.toLower⟩

/-- Python `s.upper()` (ASCII). -/
def pyUpper (s : String) : String := ⟨s.data.map Char.toUpper⟩

/-- Python `s.replace(" ", "")`. -/
def pyNoSpaces (s : String) : String := ⟨s.data.filter (· ≠ ' ')⟩

/-- `indent_of` from `validator.py`: `len(s) - len(s.lstrip(" "))`. -/
def indentOf (s : String) : Nat := (s.data.takeWhile (· = ' ')).length

/-- A line-break character for Python `str.splitlines()`. -/
def isLineBreakC (c : Char) : Bool :=
  c = '\n' || c = '\x0d' || c = '\x0b' || c = '\x0c' ||
  c = '\x1c' || c = '\x1d' || c = '\x1e' || c = '\x85' ||
  c = '\u2028' || c = '\u2029'

/-- Worker for `pySplitlines`; `acc` holds the current line reversed. -/
def splitlinesAux : List Char → List Char → List (List Char)
  | acc, [] => if acc.isEmpty then [] else [acc.reverse]
  | acc, '\x0d' :: '\n' :: rest => acc.reverse :: splitlinesAux [] rest
  | acc, c :: rest =>
    if isLineBreakC c then acc.reverse :: splitlinesAux [] rest
    else splitlinesAux (c :: acc) rest

/-- Python `str.splitlines()`: split at line-break characters (`\r\n`
counting as one break), no trailing empty line for a trailing break. -/
def pySplitlines (s : String) : List String :=
  (splitlinesAux [] s.data).map (fun l => ⟨l⟩)

/-- Decimal value of a digit run. -/
def digitsToNat (l : List Char) : Nat :=
  l.foldl (fun n c => n * 10 + (c.toNat - '0'.toNat)) 0

/-- Python `int(...)` applied to the `str()` of a YAML scalar: optional
whitespace, optional sign, then a nonempty digit run (underscore digit
grouping is not used by the repository's policies and is not modelled). -/
def pyIntOfString (s : String) : Option Int :=
  let t := stripBoth isPySpace s.data
  let (sign, digits) :=
    match t with
    | '-' :: rest => ((-1 : Int), rest)
    | '+' :: rest => ((1 : Int), rest)
    | rest => ((1 : Int), rest)
  if digits.isEmpty || !digits.all isDigitC then none
  else some (sign * (digitsToNat digits : Int))

/-- Python `str(list_of_str)`, used by one violation message. -/
def pyStrList (l : List String) : String :=
  "[" ++ String.intercalate ", " (l.map (fun s => "'" ++ s ++ "'")) ++ "]"

/-- Code-point lexicographic `≤` on character lists (how Python compares
strings). -/
def pyCharListLe : List Char → List Char → Bool
  | [], _ => true
  | _ :: _, [] => false
  | a :: as, b :: bs =>
    if a.toNat < b.toNat then true
    else if b.toNat < a.toNat then false
    else pyCharListLe as bs

def pyStrLe (s t : String) : Bool := pyCharListLe s.data t.data

/-- Python `sorted` on strings (lexicographic by code point). Insertion
sort agrees with any stable sort here: equal keys are identical strings. -/
def pySortStrings (l : List String) : List String :=
  l.insertionSort (fun a b => pyStrLe a b = true)

/-- `os.path.basename` on POSIX: the part after the last `/`. -/
def pyBasename (s : String) : String :=
  ⟨(s.data.reverse.takeWhile (· ≠ '/')).reverse⟩

/-- Python `s.lstrip("./")`: drop every leading `.` or `/`. -/
def pyLstripDotSlash (s : String) : String :=
  ⟨s.data.dropWhile (fun c => c = '.' || c = '/')⟩

/-- Python `s.split(sep, 1)[1]` when `sep in s`, else the sentinel default:
the text after the first occurrence of the (one-character) separator. -/
def pyAfterFirst (sep : Char) : List Char → Option (List Char)
  | [] => none
  | c :: t => if c = sep then some t else pyAfterFirst sep t

/-- Python `s.split(sep)` for a one-character separator. -/
def pySplitChar (sep : Char) (s : String) : List String :=
  (splitCharAux sep [] s.data).map (fun l => ⟨l⟩)
where
  splitCharAux (sep : Char) : List Char → List Char → List (List Char)
    | acc, [] => [acc.reverse]
    | acc, c :: rest =>
      if c = sep then acc.reverse :: splitCharAux sep [] rest
      else splitCharAux sep (c :: acc) rest

/-! ## Diff parser (`utils.parse_unified_diff`) -/

/-- A parsed per-file change: `{"file": ..., "added": [...], "removed": [...]}`. -/
structure FileChange where
  file : String
  added : List String
  removed : List String
deriving Repr, DecidableEq

/-- Consume a literal from the front of a character list. -/
def afterLit : List Char → List Char → Option (List Char)
  | [], t => some t
  | _ :: _, [] => none
  | p :: ps, c :: cs => if p = c then afterLit ps cs else none

/-- `HUNK_FILE_RE = ^\+\+\+\s+b/(.+)$` applied to a line's characters
(`.` does not match a newline). -/
def matchPlusFile (l : List Char) : Option String :=
  match afterLit ['+', '+', '+'] l with
  | some rest =>
    if (rest.takeWhile isPySpace).isEmpty then none
    else
      match afterLit ['b', '/'] (rest.dropWhile isPySpace) with
      | some tail =>
        if tail.isEmpty || tail.contains '\n' then none else some ⟨tail⟩
      | none => none
  | none => none

/-- One iteration of the `parse_unified_diff` loop; the state is
`(changes, current)`. -/
def parseStep (st : List FileChange × Option FileChange) (line : String) :
    List FileChange × Option FileChange :=
  if strStarts line "diff " then (st.1 ++ st.2.toList, none)
  else if strStarts line "--- " then st
  else if strStarts line "+++ " then
    match matchPlusFile line.data with
    | some p => (st.1 ++ st.2.toList, some ⟨p, [], []⟩)
    | none => st
  else if strStarts line "+" && !strStarts line "+++" then
    match st.2 with
    | some c => (st.1, some { c with added := c.added ++ [pyDrop line 1] })
    | none => st
  else if strStarts line "-" && !strStarts line "---" then
    match st.2 with
    | some c => (st.1, some { c with removed := c.removed ++ [pyDrop line 1] })
    | none => st
  else st

/-- The scan state of `parse_unified_diff` after all lines are processed
(closed records, still-open record). -/
def parseScan (s : String) : List FileChange × Option FileChange :=
  (pySplitlines s).foldl parseStep ([], none)

/-- `utils.parse_unified_diff`: scan the lines, then flush a still-open
record. -/
def parseUnifiedDiff (s : String) : List FileChange :=
  let st := parseScan s
  st.1 ++ st.2.toList

/-! ## Validator data model (`validator.py`) -/

/-- `validator.Violation`. -/
structure Violation where
  type : String
  message : String
  file : Option String := none
  evidence : Option String := none
deriving Repr, DecidableEq

/-- The per-service policy entry, with the defaults `Validator`'s checks
apply on missing keys (`.get("allowed_db_access", False)` and friends).
`redis_db` holds the `str()` of the raw policy value as consumed by
`int(str(expected_db))`. -/
structure ServiceRule where
  blocked_imports : List String := []
  blocked_env_vars : List String := []
  allowed_db_access : Bool := false
  redis_db : Option String := none
deriving Repr, DecidableEq

/-- The state `Validator.__init__` derives from the policy document (with
all the `.get(..., default) or ...` defaults of `__init__` applied).
Python `set`s that are only membership-tested are lists here; where the
source iterates such a set, we iterate the list and note that Python's
set order is unspecified within a process but fixed, so this is one
deterministic refinement of it. -/
structure Validator where
  services : List (String × ServiceRule) := []
  compose_files : List String := []
  blocked_db_imports : List String := []
  blocked_llm_gateway : List String := []
  compose_blocked_env : List (String × List String) := []
  migrations_allowed : List String := []
  multi_forbidden : List String := []
  sensitive_env_keys : List String := []
  sqlalchemy_reserved : List String := []
  mock_forbidden_terms : List String :=
    ["use_mock", "mock", "fake", "placeholder", "stub", "dummy", "sample_data"]
  mock_allowed_path_substrings : List String :=
    ["/tests/", "/test/", "/__tests__/", "/fixtures/", "/examples/", "/scripts/",
     "/migrations/"]
  forbid_literal_return_in_except : Bool := true
  redis_ttl_required_outside_db : Bool := true
  redis_client_imports : List String := []
  redis_invalidation_calls : List String := []
  redis_db_write_hints : List String := []
  redis_persistent_cmds : List String := []
  redis_key_ns_per_service : List (String × String) := []
deriving Repr, DecidableEq

/-- `self.services.get(svc, {})` with the field defaults. -/
def svcRule (v : Validator) (name : String) : ServiceRule :=
  (v.services.lookup name).getD {}

/-- `self.compose_blocked_env.get(svc, [])`. -/
def composeBlockedFor (v : Validator) (name : String) : List String :=
  (v.compose_blocked_env.lookup name).getD []

/-- `self.redis_key_prefix_per_service.get(svc) or f"{svc}:"`. -/
def keyNsFor (v : Validator) (name : String) : String :=
  match v.redis_key_ns_per_service.lookup name with
  | some p => if p.isEmpty then name ++ ":" else p
  | none => name ++ ":"

def DB_URL_HINTS : List String :=
  ["postgresql://", "postgresql+asyncpg://", "postgres://"]

def MIGRATION_IMPORTS : List String := ["alembic"]

def MIGRATION_DIR_HINTS : List String := ["migrations", "alembic"]

def SQL_PUBLIC_HINTS : List String :=
  ["schema=\"public\"", "schema='public'", ".schema('public')",
   "CREATE SCHEMA public", "DROP SCHEMA public"]

def TOP_LEVEL_IGNORES : List String :=
  ["services", "version", "volumes", "networks", "configs", "secrets"]

def SERVICE_FIELD_IGNORES : List String :=
  ["image", "build", "command", "entrypoint", "environment", "env_file",
   "ports", "volumes", "depends_on", "restart", "healthcheck", "deploy",
   "labels", "container_name", "networks", "logging", "extra_hosts", "user",
   "working_dir", "secrets", "configs", "expose", "stop_grace_period",
   "stop_signal", "ulimits", "cap_add", "cap_drop", "privileged"]

/-- `utils.SERVICE_DIR_MAP` (insertion order preserved). -/
def SERVICE_DIR_MAP : List (String × String) :=
  [("ai-engine", "ai-engine"), ("backend-orchestrator", "backend-orchestrator"),
   ("memory-engine", "memory-engine"), ("rules-engine", "rules_engine")]

/-- `utils.service_for_path`. -/
def serviceForPath (relPath : String) : Option String :=
  let r := pyLstripDotSlash relPath
  (SERVICE_DIR_MAP.find? (fun p => strStarts r (p.2 ++ "/"))).map (·.1)

/-! ### Compose-scanner regular expressions -/

/-- `^\s*services:\s*$`. -/
def isServicesHeader (line : String) : Bool :=
  match afterLit "services:".data (line.data.dropWhile isPySpace) with
  | some rest => rest.all isPySpace
  | none => false

/-- `^\s*([A-Za-z0-9_-]+):\s*$`, returning the key. -/
def matchKeyLine (line : String) : Option String :=
  let t := line.data.dropWhile isPySpace
  let key := t.takeWhile isKeyC
  if key.isEmpty then none
  else
    match t.dropWhile isKeyC with
    | ':' :: tail => if tail.all isPySpace then some ⟨key⟩ else none
    | _ => none

/-- `^\s*environment\s*:\s*$`. -/
def isBareEnvHeader (line : String) : Bool :=
  match afterLit "environment".data (line.data.dropWhile isPySpace) with
  | some rest =>
    match rest.dropWhile isPySpace with
    | ':' :: tail => tail.all isPySpace
    | _ => false
  | none => false

/-- `ENV_ASSIGN_RE = ^\s*-\s*([A-Za-z_][A-Za-z0-9_]*)\s*=` (prefix match),
returning the key. -/
def matchEnvAssign (line : String) : Option String :=
  match line.data.dropWhile isPySpace with
  | '-' :: rest =>
    match rest.dropWhile isPySpace with
    | c :: cs =>
      if isAlphaC c || c = '_' then
        match (cs.dropWhile isWordC).dropWhile isPySpace with
        | '=' :: _ => some ⟨c :: cs.takeWhile isWordC⟩
        | _ => none
      else none
    | [] => none
  | _ => none

/-- `ENV_DICT_RE = ^\s*([A-Za-z_][A-Za-z0-9_]*)\s*:` (prefix match),
returning the key. -/
def matchEnvDict (line : String) : Option String :=
  match line.data.dropWhile isPySpace with
  | c :: cs =>
    if isAlphaC c || c = '_' then
      match (cs.dropWhile isWordC).dropWhile isPySpace with
      | ':' :: _ => some ⟨c :: cs.takeWhile isWordC⟩
      | _ => none
    else none
  | [] => none

/-- Shared tail of the inline-`environment` matchers: the greedy `(.*)`
followed by the closing bracket and `\s*$`. -/
def innerUpToClose (close : Char) (r : List Char) : Option String :=
  match (dropEndWhile isPySpace r).reverse with
  | c :: revInner =>
    if c = close then
      let inner := revInner.reverse
      if inner.contains '\n' then none else some ⟨inner⟩
    else none
  | [] => none

/-- `INLINE_ENV_LIST_RE = ^\s*environment\s*:\s*\[(.*)\]\s*$`. -/
def matchInlineEnvList (line : String) : Option String :=
  match afterLit "environment".data (line.data.dropWhile isPySpace) with
  | some r1 =>
    match r1.dropWhile isPySpace with
    | ':' :: r2 =>
      match r2.dropWhile isPySpace with
      | '[' :: r3 => innerUpToClose ']' r3
      | _ => none
    | _ => none
  | none => none

/-- `INLINE_ENV_DICT_RE = ^\s*environment\s*:\s*\{(.*)\}\s*$`. -/
def matchInlineEnvDict (line : String) : Option String :=
  match afterLit "environment".data (line.data.dropWhile isPySpace) with
  | some r1 =>
    match r1.dropWhile isPySpace with
    | ':' :: r2 =>
      match r2.dropWhile isPySpace with
      | '{' :: r3 => innerUpToClose '}' r3
      | _ => none
    | _ => none
  | none => none

/-- At one start position: `redis(?:s)?://` (the greedy optional `s`
first), returning the rest. -/
def redisSchemeAfter (l : List Char) : Option (List Char) :=
  match afterLit "rediss://".data l with
  | some r => some r
  | none => afterLit "redis://".data l

/-- The lazy `[^\s]*?/(\d+)` after the scheme: scan forward over non-space
characters for the first `/` followed by a digit; capture the maximal
digit run. -/
def scanSlashDigits : List Char → Option Int
  | [] => none
  | '/' :: rest =>
    let ds := rest.takeWhile isDigitC
    if ds.isEmpty then scanSlashDigits rest else pyIntOfString ⟨ds⟩
  | c :: rest => if isPySpace c then none else scanSlashDigits rest

/-- `re.search(r"redis(?:s)?://[^\s]*?/(\d+)", u)` with `int` applied to
the capture. -/
def searchRedisDb : List Char → Option Int
  | [] => none
  | c :: t =>
    match redisSchemeAfter (c :: t) with
    | some rest =>
      match scanSlashDigits rest with
      | some n => some n
      | none => searchRedisDb t
    | none => searchRedisDb t

/-- `re.search(r"(?:\?|&)db=(\d+)", u)` with `int` applied to the capture. -/
def searchDbQuery : List Char → Option Int
  | [] => none
  | c :: t =>
    if c = '?' || c = '&' then
      match afterLit "db=".data t with
      | some rest =>
        let ds := rest.takeWhile isDigitC
        if ds.isEmpty then searchDbQuery t else pyIntOfString ⟨ds⟩
      | none => searchDbQuery t
    else searchDbQuery t

/-- `extract_db_from_redis_url` from `_check_compose_added_lines`. -/
def extractDbFromRedisUrl (url : String) : Option Int :=
  let u := pyStripChar '\'' (pyStripChar '"' (pyStrip url))
  match searchRedisDb u.data with
  | some n => some n
  | none => searchDbQuery u.data

/-! ### The compose structural scanner (`Validator._check_compose_added_lines`) -/

/-- The scanner's mutable locals. -/
structure ComposeSt where
  current_service : Option String := none
  service_indent : Nat := 0
  in_services : Bool := false
  services_indent : Nat := 0
  in_env : Bool := false
  env_indent : Nat := 0
deriving Repr, DecidableEq

/-- The checks run on one attributed `(key, value)` environment entry:
blocked variable, DB-URL value, and the Redis-DB policy comparison.
`actualOf` is the per-call-site conversion applied to the value before
comparing with the policy's `redis_db` (`int(str(v).strip())` for the
inline styles, `int(value.strip('"').strip("'"))` for the block styles). -/
def envEntryViolations (v : Validator) (cs fpath line key value : String)
    (actualOf : String → Option Int) : List Violation :=
  let rules := svcRule v cs
  let blocked_all := rules.blocked_env_vars ++ composeBlockedFor v cs
  let d1 : List Violation :=
    if blocked_all.contains key then
      [{ type := "compose_blocked_env",
         message := "Environment variable '" ++ key ++
           "' is not allowed for service '" ++ cs ++ "'.",
         file := some fpath, evidence := some (pyStrip line) }]
    else []
  let d2 : List Violation :=
    if !rules.allowed_db_access &&
        DB_URL_HINTS.any (fun h => strContains (pyLower value) h) then
      [{ type := "compose_blocked_db_access",
         message := "Database URL detected in environment for service '" ++
           cs ++ "', which is not allowed.",
         file := some fpath, evidence := some (pyStrip line) }]
    else []
  let d3 : List Violation :=
    match rules.redis_db with
    | none => []
    | some raw =>
      let keyUp := pyUpper (pyStrip key)
      match pyIntOfString raw with
      | none => []
      | some e =>
        (if strEnds keyUp "REDIS_DB" then
          match actualOf value with
          | some a =>
            if a ≠ e then
              [{ type := "compose_redis_db_mismatch",
                 message := "Service '" ++ cs ++ "' must use REDIS_DB=" ++
                   toString e ++ " per policy.",
                 file := some fpath, evidence := some (pyStrip line) }]
            else []
          | none => []
        else []) ++
        (if strEnds keyUp "REDIS_URL" then
          match extractDbFromRedisUrl value with
          | some a =>
            if a ≠ e then
              [{ type := "compose_redis_url_db_mismatch",
                 message := "Service '" ++ cs ++ "' REDIS_URL must reference DB " ++
                   toString e ++ " per policy.",
                 file := some fpath, evidence := some (pyStrip line) }]
            else []
          | none => []
        else [])
  d1 ++ d2 ++ d3

/-- One token of the single-line `environment: ["K=V", ...]` form. -/
def inlineListItemViolations (v : Validator) (cs fpath line it : String) :
    List Violation :=
  let t := pyStripChar '\'' (pyStripChar '"' (pyStrip it))
  let kv : String × String :=
    match pyAfterFirst '=' t.data with
    | some tail => (⟨t.data.takeWhile (· ≠ '=')⟩, ⟨tail⟩)
    | none => (t, "")
  envEntryViolations v cs fpath line kv.1 kv.2 pyIntOfString

/-- One token of the single-line `environment: {K: v, ...}` form;
tokens without a `:` are skipped. -/
def inlineDictItemViolations (v : Validator) (cs fpath line pr : String) :
    List Violation :=
  match pyAfterFirst ':' pr.data with
  | none => []
  | some tail =>
    let k := pyStripChar '\'' (pyStripChar '"' (pyStrip ⟨pr.data.takeWhile (· ≠ ':')⟩))
    let vv := pyStripChar '\'' (pyStripChar '"' (pyStrip ⟨tail⟩))
    envEntryViolations v cs fpath line k vv pyIntOfString

/-- `[tok.strip() for tok in inner.split(",") if tok.strip()]`. -/
def inlineTokens (inner : String) : List String :=
  ((pySplitChar ',' inner).map pyStrip).filter (fun t => t ≠ "")

/-- The conversion used by the block styles before the `REDIS_DB`
comparison: `int(value.strip('"').strip("'"))`. -/
def blockStyleActual (s : String) : Option Int :=
  pyIntOfString (pyStripChar '\'' (pyStripChar '"' s))

/-- The warning emitted when `env_file` is added under a service that may
not own DB configuration. -/
def envFileViolation (cs fpath line : String) : Violation :=
  { type := "compose_env_file_added",
    message := "'env_file' added under service '" ++ cs ++
      "'. External env files may conceal DB URLs; this service cannot own DB configs.",
    file := some fpath, evidence := some (pyStrip line) }

/-- The dedent test at the top of the `if in_services:` block ("leave
services block on dedent to same or less indent"). -/
def composeDedent (st : ComposeSt) (line : String) : ComposeSt :=
  if pyStrip line ≠ "" ∧ ¬ strStarts (pyStrip line) "#" = true ∧
      indentOf line ≤ st.services_indent then
    { st with in_services := false, current_service := none, in_env := false }
  else st

/-- The `if m_key:` body of `_check_compose_added_lines`: how a `key:`
line moves the scanner state; `Sum.inl` is one of the body's `continue`s,
`Sum.inr` falls through to the environment-entry handling. -/
def composeKeyStep (v : Validator) (fpath : String) (st₁ : ComposeSt)
    (line key : String) : (ComposeSt × List Violation) ⊕ ComposeSt :=
  if TOP_LEVEL_IGNORES.contains key ∨ strStarts key "x-" then
    Sum.inl ({ st₁ with current_service := none, in_env := false }, [])
  else if indentOf line > st₁.services_indent then
    match st₁.current_service with
    | none =>
      Sum.inl ({ st₁ with current_service := some key,
                          service_indent := indentOf line, in_env := false }, [])
    | some cs =>
      if indentOf line = st₁.service_indent then
        Sum.inl ({ st₁ with current_service := some key, in_env := false }, [])
      else if indentOf line > st₁.service_indent then
        if SERVICE_FIELD_IGNORES.contains key then
          Sum.inl ({ st₁ with in_env := (key = "environment") },
            if key = "env_file" ∧ ¬ (svcRule v cs).allowed_db_access = true then
              [envFileViolation cs fpath line]
            else [])
        else
          Sum.inl ({ st₁ with in_env := false }, [])
      else Sum.inr st₁
  else Sum.inr st₁

/-- The whole `if in_services:` block. -/
def composeServicesBlock (v : Validator) (fpath : String) (st : ComposeSt)
    (line : String) : (ComposeSt × List Violation) ⊕ ComposeSt :=
  if st.in_services then
    match matchKeyLine line with
    | some key => composeKeyStep v fpath (composeDedent st line) line key
    | none => Sum.inr (composeDedent st line)
  else Sum.inr st

/-- The `split("=", 1)[1].strip()` / `split(":", 1)[1].strip()` value of a
block-style environment entry. -/
def envValueAfter (sep : Char) (line : String) : String :=
  match pyAfterFirst sep line.data with
  | some tail => pyStrip ⟨tail⟩
  | none => ""

/-- The environment-entry handling that runs once a current service is
attributed: inline single-line forms, the `environment:` block header,
the block-closing dedent, and the two block entry styles. -/
def composeEnvPart (v : Validator) (fpath : String) (st₁ : ComposeSt)
    (cs line : String) : ComposeSt × List Violation :=
  match matchInlineEnvList line with
  | some inner =>
    (st₁, (inlineTokens inner).flatMap
      (fun it => inlineListItemViolations v cs fpath line it))
  | none =>
  match matchInlineEnvDict line with
  | some inner =>
    (st₁, (inlineTokens inner).flatMap
      (fun pr => inlineDictItemViolations v cs fpath line pr))
  | none =>
  if isBareEnvHeader line then
    ({ st₁ with in_env := true, env_indent := indentOf line }, [])
  else
    let st₂ :=
      if st₁.in_env = true ∧ pyStrip line ≠ "" ∧
          indentOf line ≤ st₁.env_indent then
        { st₁ with in_env := false }
      else st₁
    if !st₂.in_env then (st₂, [])
    else
      match matchEnvAssign line with
      | some key =>
        (st₂, envEntryViolations v cs fpath line key (envValueAfter '=' line)
          blockStyleActual)
      | none =>
        match matchEnvDict line with
        | some key =>
          (st₂, envEntryViolations v cs fpath line key (envValueAfter ':' line)
            blockStyleActual)
        | none => (st₂, [])

/-- One iteration of the `for raw in added` loop of
`_check_compose_added_lines`: the updated locals and the violations this
line appends. -/
def composeLineStep (v : Validator) (fpath : String) (st : ComposeSt)
    (raw : String) : ComposeSt × List Violation :=
  let line := pyRstripNl raw
  if isServicesHeader line then
    ({ st with in_services := true, services_indent := indentOf line,
               current_service := none, in_env := false }, [])
  else
    match composeServicesBlock v fpath st line with
    | Sum.inl res => res
    | Sum.inr st₁ =>
      match st₁.current_service with
      | none => (st₁, [])
      | some cs => composeEnvPart v fpath st₁ cs line

/-- `Validator._check_compose_added_lines`. -/
def checkComposeAddedLines (v : Validator) (fpath : String)
    (added : List String) : List Violation :=
  (added.foldl
    (fun (acc : ComposeSt × List Violation) raw =>
      let r := composeLineStep v fpath acc.1 raw
      (r.1, acc.2 ++ r.2))
    ({}, [])).2

/-! ### Generic `re.search` machinery -/

def isWordO : Option Char → Bool
  | some c => isWordC c
  | none => false

/-- The regex `\b` between two (possibly absent) adjacent characters. -/
def bndry (a b : Option Char) : Bool := isWordO a != isWordO b

/-- `[A-Za-z_][A-Za-z0-9_]*` at the front: the identifier and the rest. -/
def identAt : List Char → Option (List Char × List Char)
  | c :: cs =>
    if isAlphaC c || c = '_' then some (c :: cs.takeWhile isWordC, cs.dropWhile isWordC)
    else none
  | [] => none

/-- Case-insensitive literal consume (ASCII case folding, as `re.IGNORECASE`
behaves on the repository's ASCII policies). -/
def ciAfterLit : List Char → List Char → Option (List Char)
  | [], t => some t
  | _ :: _, [] => none
  | p :: ps, c :: cs => if p.toLower = c.toLower then ciAfterLit ps cs else none

/-- Leftmost-match `re.search` for a Bool condition that may look at the
character before the match start (for `\b`). -/
def searchHit (f : Option Char → List Char → Bool) : Option Char → List Char → Bool
  | prev, [] => f prev []
  | prev, c :: t => f prev (c :: t) || searchHit f (some c) t

/-- Leftmost-match `re.search` returning the first position's captures. -/
def searchCap {α : Type} (f : Option Char → List Char → Option α) :
    Option Char → List Char → Option α
  | prev, [] => f prev []
  | prev, c :: t =>
    match f prev (c :: t) with
    | some r => some r
    | none => searchCap f (some c) t

/-- First-occurrence deduplication: a Python `set` kept in insertion
order, a deterministic refinement of set iteration. -/
def dedupKeepFirstAux (seen : List String) : List String → List String
  | [] => []
  | x :: xs =>
    if seen.contains x then dedupKeepFirstAux seen xs
    else x :: dedupKeepFirstAux (x :: seen) xs

def dedupKeepFirst (l : List String) : List String := dedupKeepFirstAux [] l

/-- Python `part.split(" as ")[0]`: the text before the first occurrence
of the separator (the whole text when absent). -/
def beforeFirstSub (sep : List Char) : List Char → List Char
  | [] => []
  | c :: t => if hasPref sep (c :: t) then [] else c :: beforeFirstSub sep t

/-! ### `Validator._check_blocked_imports` -/

/-- `^from\s+([A-Za-z0-9_\.]+)\s+import\s+.+$` (anchored), returning the
package group. -/
def matchFromImport (ls : String) : Option String :=
  match afterLit "from".data ls.data with
  | some r1 =>
    if (r1.takeWhile isPySpace).isEmpty then none
    else
      let r2 := r1.dropWhile isPySpace
      let pkgC := fun c => isAlphaC c || isDigitC c || c = '_' || c = '.'
      let pkg := r2.takeWhile pkgC
      if pkg.isEmpty then none
      else
        let r3 := r2.dropWhile pkgC
        if (r3.takeWhile isPySpace).isEmpty then none
        else
          match afterLit "import".data (r3.dropWhile isPySpace) with
          | some r4 =>
            if (r4.takeWhile isPySpace).isEmpty then none
            else
              let tail := r4.dropWhile isPySpace
              if tail.isEmpty || tail.contains '\n' then none else some ⟨pkg⟩
          | none => none
  | none => none

/-- The violation emitted when a blocked module is named by an import. -/
def blockedImportViolation (mod svc fpath ls : String) : Violation :=
  { type := "blocked_import",
    message := "Import '" ++ mod ++ "' is not allowed in service '" ++ svc ++ "'.",
    file := some fpath, evidence := some ls }

/-- One added line of `_check_blocked_imports` (the `break` after the first
matching module is `find?`; the iteration order over the union of the
blocked sets is fixed here, a deterministic refinement of Python's set
order, which only influences the module named in the message). -/
def importLineViolations (blocked : List String) (svc fpath line : String) :
    List Violation :=
  let ls := pyStrip line
  if strStarts ls "import " then
    (pySplitChar ',' (pyDrop ls 7)).flatMap (fun part =>
      let name : String := pyStrip ⟨beforeFirstSub " as ".data (pyStrip part).data⟩
      match blocked.find? (fun mod => name == mod || strStarts name (mod ++ ".")) with
      | some mod => [blockedImportViolation mod svc fpath ls]
      | none => [])
  else if strStarts ls "from " then
    match matchFromImport ls with
    | some pkg =>
      match blocked.find? (fun mod => pkg == mod || strStarts pkg (mod ++ ".")) with
      | some mod => [blockedImportViolation mod svc fpath ls]
      | none => []
    | none => []
  else []

def checkBlockedImports (v : Validator) (fpath : String) (svc : Option String)
    (added : List String) : List Violation :=
  match svc with
  | none => []
  | some s =>
    let blocked := (svcRule v s).blocked_imports ++ v.blocked_db_imports ++
      (if s = "backend-orchestrator" then v.blocked_llm_gateway else [])
    added.flatMap (fun line => importLineViolations blocked s fpath line)

/-! ### `Validator._check_blocked_db_urls` -/

def checkBlockedDbUrls (v : Validator) (fpath : String) (svc : Option String)
    (added : List String) : List Violation :=
  match svc with
  | none => []
  | some s =>
    if (svcRule v s).allowed_db_access then []
    else
      added.flatMap (fun line =>
        let low := pyLower line
        if strContains low "database_url" ||
            DB_URL_HINTS.any (fun h => strContains low h) then
          [{ type := "blocked_db_access",
             message := "Direct database URL/config detected in '" ++ s ++
               "', which is not allowed.",
             file := some fpath, evidence := some (pyStrip line) }]
        else [])

/-! ### `Validator._check_migrations` -/

def checkMigrations (v : Validator) (fpath : String) (svc : Option String)
    (added : List String) : List Violation :=
  if (match svc with
      | some s => v.migrations_allowed.contains s
      | none => false) then []
  else if MIGRATION_DIR_HINTS.any (fun h => strContains fpath h) then
    [{ type := "blocked_migration",
       message := "Migrations are only allowed in services " ++
         pyStrList (pySortStrings v.migrations_allowed) ++ ".",
       file := some fpath, evidence := some fpath }]
  else
    added.flatMap (fun line =>
      if MIGRATION_IMPORTS.any (fun mi => strContains line mi) then
        [{ type := "blocked_migration",
           message := "Alembic/migration usage is restricted to " ++
             pyStrList (pySortStrings v.migrations_allowed) ++ ".",
           file := some fpath, evidence := some (pyStrip line) }]
      else [])

/-! ### `Validator._check_multi_tenant_sql` -/

def checkMultiTenantSql (v : Validator) (fpath : String)
    (added : List String) : List Violation :=
  let pats := v.multi_forbidden.map pyLower ++ SQL_PUBLIC_HINTS.map pyLower
  added.flatMap (fun line =>
    if pats.any (fun p => strContains (pyLower line) p) then
      [{ type := "multi_tenant_violation",
         message := "Forbidden reference to public schema or non-tenant-safe SQL detected.",
         file := some fpath, evidence := some (pyStrip line) }]
    else [])

/-! ### `Validator._check_sqlalchemy_reserved` -/

/-- `kw_assign_re = \b({names})\s*=` with `re.IGNORECASE`, searched. -/
def kwAssignHit (reserved : List String) (line : String) : Bool :=
  searchHit
    (fun prev l =>
      reserved.any (fun nm =>
        match ciAfterLit nm.data l with
        | some r =>
          bndry prev l.head? &&
          (match r.dropWhile isPySpace with
           | '=' :: _ => true
           | _ => false)
        | none => false))
    none line.data

/-- `col_name_literal_re = Column\s*\(\s*(['"])({names})\1\s*[,)\n]` with
`re.IGNORECASE`, searched. -/
def colNameHit (reserved : List String) (line : String) : Bool :=
  searchHit
    (fun _ l =>
      match ciAfterLit "Column".data l with
      | some r1 =>
        match r1.dropWhile isPySpace with
        | '(' :: r2 =>
          match r2.dropWhile isPySpace with
          | q :: r3 =>
            (q = '\'' || q = '"') &&
            reserved.any (fun nm =>
              match ciAfterLit nm.data r3 with
              | some r4 =>
                match r4 with
                | c :: r5 =>
                  c = q &&
                  (match r5.dropWhile isPySpace with
                   | d :: _ => d = ',' || d = ')' || d = '\n'
                   | [] => false)
                | [] => false
              | none => false)
          | [] => false
        | _ => false
      | none => false)
    none line.data

def checkSqlalchemyReserved (v : Validator) (fpath : String)
    (added : List String) : List Violation :=
  if ¬ (strEnds fpath ".py" || strEnds fpath ".pyi") = true then []
  else
    let reserved := v.sqlalchemy_reserved.map pyLower
    if reserved.isEmpty then []
    else
      added.flatMap (fun line =>
        if kwAssignHit reserved line then
          [{ type := "sqlalchemy_reserved_identifier",
             message := "Use of reserved identifier (e.g., 'metadata') detected; rename to 'meta' or another name.",
             file := some fpath, evidence := some (pyStrip line) }]
        else if colNameHit reserved line then
          [{ type := "sqlalchemy_reserved_identifier",
             message := "Column named with reserved identifier (e.g., 'metadata'); use a different column/attr name like 'meta'.",
             file := some fpath, evidence := some (pyStrip line) }]
        else [])

/-! ### `Validator._check_hardcoded_env_fallbacks` -/

/-- The default-expression group `\s*,\s*([^\)]+)\)` after the key: the
greedy `\s*` backs off just enough to leave the group nonempty. -/
def defaultGroupAfterComma (r4 : List Char) : Option (List Char) :=
  let seg := r4.takeWhile (· ≠ ')')
  if seg.isEmpty then none
  else
    match r4.dropWhile (· ≠ ')') with
    | ')' :: _ =>
      let g := seg.dropWhile isPySpace
      if g.isEmpty then some (seg.drop (seg.length - 1)) else some g
    | _ => none

/-- `{call}\(\s*['"]([A-Za-z_][A-Za-z0-9_]*)['"]\s*,\s*([^\)]+)\)` tried at
one position (the opening and closing quotes are independent classes in
the source pattern). -/
def matchEnvCallAt (callLit : List Char) (l : List Char) :
    Option (String × String) :=
  match afterLit callLit l with
  | some r1 =>
    match r1.dropWhile isPySpace with
    | q :: r2 =>
      if q = '\'' || q = '"' then
        match r2 with
        | c :: cs =>
          if isAlphaC c || c = '_' then
            let key := c :: cs.takeWhile isWordC
            match cs.dropWhile isWordC with
            | q2 :: r3 =>
              if q2 = '\'' || q2 = '"' then
                match r3.dropWhile isPySpace with
                | ',' :: r4 =>
                  match defaultGroupAfterComma r4 with
                  | some g => some (⟨key⟩, ⟨g⟩)
                  | none => none
                | _ => none
              else none
            | [] => none
          else none
        | [] => none
      else none
    | [] => none
  | none => none

/-- `getv_re.search` / `envget_re.search` (leftmost match). -/
def searchEnvCall (callLit : List Char) (line : String) :
    Option (String × String) :=
  searchCap (fun _ l => matchEnvCallAt callLit l) none line.data

/-- `str_lit_re = ^\s*['\"].*['\"]\s*$`. -/
def isStrLitDefault (s : String) : Bool :=
  let t := stripBoth isPySpace s.data
  match t, t.reverse with
  | q1 :: _ :: _, q2 :: _ =>
    (q1 = '\'' || q1 = '"') && (q2 = '\'' || q2 = '"')
  | _, _ => false

def checkHardcodedEnvFallbacks (v : Validator) (fpath : String)
    (added : List String) : List Violation :=
  if ¬ (strEnds fpath ".py" || strEnds fpath ".pyi") = true then []
  else
    added.flatMap (fun line =>
      let m1 := searchEnvCall "os.getenv(".data line
      let m2 := searchEnvCall "os.environ.get(".data line
      match m1.orElse (fun _ => m2) with
      | none => []
      | some (k, d) =>
        let key := pyStrip k
        let defaultExpr := pyStrip d
        let isSensitive :=
          (v.sensitive_env_keys.map pyUpper).contains (pyUpper key)
        if isSensitive || isStrLitDefault defaultExpr then
          [{ type := "hardcoded_env_fallback",
             message := "Avoid default value in getenv/environ.get for '" ++ key ++
               "'. Require config and fail fast instead of hardcoding.",
             file := some fpath, evidence := some (pyStrip line) }]
        else [])

/-! ### `Validator._check_mock_data_usage` -/

/-- `Validator._is_path_allowed_for_mock`. -/
def isPathAllowedForMock (v : Validator) (fpath : String) : Bool :=
  let f_low := pyLower ⟨fpath.data.map (fun c => if c = '\\' then '/' else c)⟩
  if v.mock_allowed_path_substrings.any
      (fun sub => strContains f_low (pyLower sub)) then true
  else
    let base := pyBasename f_low
    strStarts base "test_" || strEnds base "_test.py" ||
    strContains base ".spec." || strContains base ".test."

/-- `\b({terms})\b` with `re.IGNORECASE`, searched. -/
def mockTermHit (terms : List String) (s : String) : Bool :=
  searchHit
    (fun prev l =>
      terms.any (fun t =>
        match ciAfterLit t.data l with
        | some r => bndry prev l.head? && bndry t.data.getLast? r.head?
        | none => false))
    none s.data

def checkMockDataUsage (v : Validator) (fpath : String)
    (added : List String) : List Violation :=
  if ¬ (strEnds fpath ".py" || strEnds fpath ".js" || strEnds fpath ".ts" ||
        strEnds fpath ".tsx") = true then []
  else if isPathAllowedForMock v fpath then []
  else if v.mock_forbidden_terms.isEmpty then []
  else
    added.flatMap (fun line =>
      let s := pyStrip line
      if s = "" || strStarts s "#" then []
      else if strContains (pyNoSpaces s) "unittest.mock" ||
              strStarts s "from unittest import mock" then []
      else if mockTermHit v.mock_forbidden_terms s then
        [{ type := "mock_data_usage",
           message := "Detected mock/fake/placeholder data usage in runtime code. Do NOT use mock data; fail clearly or trigger handover.",
           file := some fpath, evidence := some s }]
      else [])

/-! ### `Validator._check_literal_return_in_except_or_catch` -/

/-- A pair of characters wrapping a body, at least two characters long. -/
def wrappedBy (o c : Char) : List Char → Bool
  | a :: b :: rest =>
    a = o && (match (b :: rest).getLast? with
              | some z => z = c
              | none => false)
  | _ => false

/-- `['\"].*['\"]` on the whole body (independent quote classes). -/
def quotedLit : List Char → Bool
  | a :: b :: rest =>
    (a = '\'' || a = '"') &&
    (match (b :: rest).getLast? with
     | some z => z = '\'' || z = '"'
     | none => false)
  | _ => false

/-- `lit_py = ^\s*return\s+(\{.*\}|\[.*\]|['\"].*['\"]|None|True|False|\d+)[\s#]*$`. -/
def litPyMatch (s : String) : Bool :=
  match afterLit "return".data (s.data.dropWhile isPySpace) with
  | some r =>
    if (r.takeWhile isPySpace).isEmpty then false
    else
      let t := dropEndWhile (fun c => isPySpace c || c = '#') (r.dropWhile isPySpace)
      wrappedBy '{' '}' t || wrappedBy '[' ']' t || quotedLit t ||
      t = "None".data || t = "True".data || t = "False".data ||
      (!t.isEmpty && t.all isDigitC)
  | none => false

/-- `lit_js = ^\s*return\s+(\{.*\}|\[.*\]|['\"].*['\"]|null|true|false|\d+)[\s/]*.*$`
(the trailing `.*$` leaves everything after the literal prefix free). -/
def litJsMatch (s : String) : Bool :=
  match afterLit "return".data (s.data.dropWhile isPySpace) with
  | some r =>
    if (r.takeWhile isPySpace).isEmpty then false
    else
      match r.dropWhile isPySpace with
      | [] => false
      | c :: t =>
        (c = '{' && t.contains '}') || (c = '[' && t.contains ']') ||
        ((c = '\'' || c = '"') && (t.contains '\'' || t.contains '"')) ||
        hasPref "null".data (c :: t) || hasPref "true".data (c :: t) ||
        hasPref "false".data (c :: t) || isDigitC c
  | none => false

/-- The ≤6-line lookahead after an exception-handler header: the first
matching line wins (`break`). -/
def litReturnWindow (is_py is_js : Bool) (fpath : String) :
    List String → List Violation
  | [] => []
  | nxt0 :: rest =>
    let nxt := pyRstripNl nxt0
    if is_py && litPyMatch nxt then
      [{ type := "silent_failure_literal_return",
         message := "Do not return literal values in except blocks. Raise a clear domain error or mark system offline/trigger handover.",
         file := some fpath, evidence := some (pyStrip nxt) }]
    else if is_js && litJsMatch nxt then
      [{ type := "silent_failure_literal_return",
         message := "Do not return literal values in catch blocks. Surface a clear user-facing outage and avoid mock data.",
         file := some fpath, evidence := some (pyStrip nxt) }]
    else litReturnWindow is_py is_js fpath rest

/-- The indexed loop of `_check_literal_return_in_except_or_catch`, as a
recursion over suffixes. -/
def litReturnGo (is_py is_js : Bool) (fpath : String) :
    List String → List Violation
  | [] => []
  | line :: rest =>
    let ls := pyStrip line
    let d :=
      if (is_py && (strStarts ls "except " || ls == "except:")) ||
          (is_js && (strContains ls "catch(" || strStarts ls "catch ")) then
        litReturnWindow is_py is_js fpath (rest.take 6)
      else []
    d ++ litReturnGo is_py is_js fpath rest

def checkLiteralReturn (v : Validator) (fpath : String)
    (added : List String) : List Violation :=
  if ¬ v.forbid_literal_return_in_except = true then []
  else
    let is_py := strEnds fpath ".py"
    let is_js := strEnds fpath ".js" || strEnds fpath ".ts" || strEnds fpath ".tsx"
    if ¬ (is_py || is_js) = true then []
    else litReturnGo is_py is_js fpath added

/-! ### `Validator._check_redis_usage` -/

def REDIS_CALL_METHODS : List String :=
  ["set", "setex", "psetex", "hset", "zadd", "xadd", "lpush", "rpush", "sadd",
   "expire", "pexpire", "delete", "unlink", "publish"]

/-- `(?:from_url|Redis)\s*\(`. -/
def aioredisAlt (u : List Char) : Bool :=
  (match afterLit "from_url".data u with
   | some u2 => match u2.dropWhile isPySpace with
     | '(' :: _ => true
     | _ => false
   | none => false) ||
  (match afterLit "Redis".data u with
   | some u2 => match u2.dropWhile isPySpace with
     | '(' :: _ => true
     | _ => false
   | none => false)

/-- `^\s*(var)\s*=\s*` shared by the four assignment patterns, returning
the variable and the right-hand side. -/
def assignHead (line : String) : Option (String × List Char) :=
  match identAt (line.data.dropWhile isPySpace) with
  | some (var, r) =>
    match r.dropWhile isPySpace with
    | '=' :: r2 => some (⟨var⟩, r2.dropWhile isPySpace)
    | _ => none
  | none => none

/-- `^\s*(var)\s*=\s*(?:[A-Za-z_][A-Za-z0-9_]*\.)?Redis\s*\(`. -/
def matchAssignRedis (line : String) : Option String :=
  match assignHead line with
  | some (var, r3) =>
    let plainOk := fun (u : List Char) =>
      match afterLit "Redis".data u with
      | some u2 =>
        match u2.dropWhile isPySpace with
        | '(' :: _ => true
        | _ => false
      | none => false
    let prefOk :=
      match identAt r3 with
      | some (_, u) =>
        match u with
        | '.' :: u2 => plainOk u2
        | _ => false
      | none => false
    if prefOk || plainOk r3 then some var else none
  | none => none

/-- `^\s*(var)\s*=\s*aioredis\.(?:from_url|Redis)\s*\(`. -/
def matchAssignAioredis (line : String) : Option String :=
  match assignHead line with
  | some (var, r3) =>
    match afterLit "aioredis.".data r3 with
    | some u => if aioredisAlt u then some var else none
    | none => none
  | none => none

/-- `^\s*(var)\s*=\s*redis\.asyncio\.(?:from_url|Redis)\s*\(`. -/
def matchAssignRedisAsyncio (line : String) : Option String :=
  match assignHead line with
  | some (var, r3) =>
    match afterLit "redis.asyncio.".data r3 with
    | some u => if aioredisAlt u then some var else none
    | none => none
  | none => none

/-- `^\s*(var)\s*=\s*(?:[A-Za-z_][A-Za-z0-9_]*)\.pipeline\s*\(`. -/
def matchAssignPipeline (line : String) : Option String :=
  match assignHead line with
  | some (var, r3) =>
    match identAt r3 with
    | some (_, u) =>
      match u with
      | '.' :: u2 =>
        match afterLit "pipeline".data u2 with
        | some u3 =>
          match u3.dropWhile isPySpace with
          | '(' :: _ => some var
          | _ => none
        | none => none
      | _ => none
    | none => none
  | none => none

/-- `call_var_re = \b(var)\.(method)\s*\(`, searched (leftmost match). -/
def searchVarMethod (l : List Char) : Option (String × String) :=
  searchCap
    (fun prev u =>
      match identAt u with
      | some (var, r) =>
        if isWordO prev then none
        else
          match r with
          | '.' :: r2 =>
            match identAt r2 with
            | some (meth, r3) =>
              match r3.dropWhile isPySpace with
              | '(' :: _ => some ((⟨var⟩ : String), (⟨meth⟩ : String))
              | _ => none
            | none => none
          | _ => none
      | none => none)
    none l

/-- `\b([A-Za-z_][A-Za-z0-9_]*)\.{lit}\s*\(`, searched; used with
`lit = "set"` and with each persistent command. -/
def searchVarLitCall (lit : String) (s : String) : Option String :=
  searchCap
    (fun prev u =>
      match identAt u with
      | some (var, r) =>
        if isWordO prev then none
        else
          match r with
          | '.' :: r2 =>
            match afterLit lit.data r2 with
            | some r3 =>
              match r3.dropWhile isPySpace with
              | '(' :: _ => some (⟨var⟩ : String)
              | _ => none
            | none => none
          | _ => none
      | none => none)
    none s.data

def addVar (acc : List String) (var : String) : List String :=
  if acc.contains var then acc else acc ++ [var]

/-- Building `client_vars`: the four assignment patterns, plus (under
an imported-client hint) receivers of typical cache-method calls on the
space-stripped line. -/
def collectClientVars (hint : Bool) (added : List String) : List String :=
  added.foldl
    (fun acc line =>
      let a1 := match matchAssignRedis line with
        | some var => addVar acc var
        | none => acc
      let a2 := match matchAssignAioredis line with
        | some var => addVar a1 var
        | none => a1
      let a3 := match matchAssignRedisAsyncio line with
        | some var => addVar a2 var
        | none => a2
      let a4 := match matchAssignPipeline line with
        | some var => addVar a3 var
        | none => a3
      if hint then
        match searchVarMethod (pyNoSpaces line).data with
        | some (var, meth) =>
          if REDIS_CALL_METHODS.contains meth then addVar a4 var else a4
        | none => a4
      else a4)
    []

def ttlViolation (svc fpath s : String) : Violation :=
  { type := "redis_ttl_required",
    message := "Service '" ++ svc ++
      "' must set TTL when writing to Redis (use ex=/px=, setex, or expire immediately after set).",
    file := some fpath, evidence := some s }

/-- The TTL-required loop (module style, then variable style, each with a
4-line expiry lookahead). -/
def ttlGo (hint : Bool) (client_vars : List String) (svc fpath : String) :
    List String → List Violation
  | [] => []
  | line :: rest =>
    let s := pyStrip line
    let compact := pyNoSpaces s
    let d :=
      if strContains compact "redis." && strContains compact ".set(" &&
          !strContains compact "setex(" && !strContains compact "ex=" &&
          !strContains compact "px=" then
        let granted := (rest.take 4).any (fun nl =>
          let seg := pyNoSpaces nl
          strContains seg "redis.expire(" || strContains seg "redis.pexpire(" ||
          strContains seg "redis.expireat(" || strContains seg "redis.pexpireat(")
        if granted then [] else [ttlViolation svc fpath s]
      else
        match searchVarLitCall "set" s with
        | some var =>
          if hint || client_vars.contains var then
            if strContains compact "setex(" || strContains compact "ex=" ||
                strContains compact "px=" then []
            else
              let granted := (rest.take 4).any (fun nl =>
                let seg := pyNoSpaces nl
                strContains seg (var ++ ".expire(") ||
                strContains seg (var ++ ".pexpire(") ||
                strContains seg (var ++ ".expireat(") ||
                strContains seg (var ++ ".pexpireat("))
              if granted then [] else [ttlViolation svc fpath s]
          else []
        | none => []
    d ++ ttlGo hint client_vars svc fpath rest

def isStrPrefC (c : Char) : Bool :=
  c = 'f' || c = 'F' || c = 'r' || c = 'R' || c = 'b' || c = 'B' ||
  c = 'u' || c = 'U'

/-- The shared tail of the literal-key patterns:
`\s*\(\s*[fFrRbBuU]*(['\"])([^'\"]+)\1` after the method name. -/
def keyLitAfterMethod (r2 : List Char) : Option String :=
  match r2.dropWhile isPySpace with
  | '(' :: r3 =>
    match (r3.dropWhile isPySpace).dropWhile isStrPrefC with
    | q :: r6 =>
      if q = '\'' || q = '"' then
        let lit := r6.takeWhile (fun c => c ≠ '\'' && c ≠ '"')
        if lit.isEmpty then none
        else
          match r6.drop lit.length with
          | q2 :: _ => if q2 = q then some (⟨lit⟩ : String) else none
          | [] => none
      else none
    | [] => none
  | _ => none

/-- `mod_key_lit_re = \bredis\.[A-Za-z_][A-Za-z0-9_]*\s*\(\s*[fFrRbBuU]*(['\"])([^'\"]+)\1`,
searched. -/
def searchModKeyLit (line : String) : Option String :=
  searchCap
    (fun prev u =>
      if isWordO prev then none
      else
        match afterLit "redis.".data u with
        | some r1 =>
          match identAt r1 with
          | some (_, r2) => keyLitAfterMethod r2
          | none => none
        | none => none)
    none line.data

/-- `vpat = \b{var}\.[A-Za-z_][A-Za-z0-9_]*\s*\(\s*[fFrRbBuU]*(['\"])([^'\"]+)\1`,
searched. -/
def searchVarKeyLit (var : String) (line : String) : Option String :=
  searchCap
    (fun prev u =>
      if isWordO prev then none
      else
        match afterLit (var ++ ".").data u with
        | some r1 =>
          match identAt r1 with
          | some (_, r2) => keyLitAfterMethod r2
          | none => none
        | none => none)
    none line.data

def nsViolation (kpfx svc fpath line : String) : Violation :=
  { type := "redis_key_not_namespaced",
    message := "Redis key should be namespaced with '" ++ kpfx ++
      "*' for service '" ++ svc ++ "'.",
    file := some fpath, evidence := some (pyStrip line) }

def persistViolation (cmd svc fpath line : String) : Violation :=
  { type := "redis_persistent_cmd_not_allowed",
    message := "Command '" ++ cmd ++
      "' suggests persisting domain state in Redis. Use DB as SoT and cache with TTL only (service '" ++
      svc ++ "').",
    file := some fpath, evidence := some (pyStrip line) }

def invViolation (svc fpath line : String) : Violation :=
  { type := "missing_cache_invalidation_after_db_write",
    message := "DB write detected in '" ++ svc ++
      "' but no cache invalidation nearby; ensure redis.delete/expire or publish or cache_invalidate after commit.",
    file := some fpath, evidence := some (pyStrip line) }

/-- The DB-write/invalidation loop with its 14-line forward window. -/
def invGo (hint : Bool) (client_vars inv_calls mod_inv hints : List String)
    (svc fpath : String) : List String → List Violation
  | [] => []
  | line :: rest =>
    let d :=
      if hints.any (fun h => strContains line h) then
        let w := line :: rest.take 13
        let found := w.any (fun seg =>
          mod_inv.any (fun p => strContains seg p) ||
          strContains seg "cache_invalidate(" ||
          (match searchVarMethod seg.data with
           | some (var, meth) =>
             (hint || client_vars.contains var) && inv_calls.contains meth
           | none => false))
        if found then [] else [invViolation svc fpath line]
      else []
    d ++ invGo hint client_vars inv_calls mod_inv hints svc fpath rest

/-- `Validator._check_redis_usage`. -/
def checkRedisUsage (v : Validator) (fpath : String) (svc : Option String)
    (added : List String) : List Violation :=
  match svc with
  | none => []
  | some s =>
    if ¬ (strEnds fpath ".py" || strEnds fpath ".pyi") = true then []
    else
      let rules := svcRule v s
      let clients := v.redis_client_imports ++ ["redis", "redis.asyncio", "aioredis"]
      let hint := added.any (fun line =>
        let ls := pyStrip line
        clients.any (fun c =>
          strStarts ls ("import " ++ c) || strStarts ls ("from " ++ c ++ " ")))
      let client_vars := collectClientVars hint added
      let ttl :=
        if v.redis_ttl_required_outside_db && !rules.allowed_db_access then
          ttlGo hint client_vars s fpath added
        else []
      let kpfx := keyNsFor v s
      let modNs := added.flatMap (fun line =>
        match searchModKeyLit line with
        | some lit =>
          if ¬ strStarts lit kpfx = true then [nsViolation kpfx s fpath line]
          else []
        | none => [])
      let varNs :=
        if !client_vars.isEmpty || hint then
          (if client_vars.isEmpty then ["redis"] else client_vars).flatMap
            (fun var => added.flatMap (fun line =>
              match searchVarKeyLit var line with
              | some lit =>
                if ¬ strStarts lit kpfx = true then [nsViolation kpfx s fpath line]
                else []
              | none => []))
        else []
      let persist :=
        if !rules.allowed_db_access then
          let cmds := dedupKeepFirst v.redis_persistent_cmds
          added.flatMap (fun line =>
            let compact := pyNoSpaces line
            cmds.flatMap (fun cmd =>
              (if strContains compact ("redis." ++ cmd ++ "(") then
                [persistViolation cmd s fpath line]
              else []) ++
              (match searchVarLitCall cmd line with
               | some var =>
                 if hint || client_vars.contains var then
                   [persistViolation cmd s fpath line]
                 else []
               | none => [])))
        else []
      let inval :=
        if rules.allowed_db_access then
          let inv_calls := dedupKeepFirst (pySortStrings
            (v.redis_invalidation_calls ++
             ["delete_many", "delete_pattern", "del_pattern", "invalidate", "clear"]))
          let mod_inv := (inv_calls.filter (fun c => c ≠ "cache_invalidate")).map
            (fun c => "redis." ++ c ++ "(")
          invGo hint client_vars inv_calls mod_inv v.redis_db_write_hints s fpath added
        else []
      ttl ++ modNs ++ varNs ++ persist ++ inval

/-! ### `Validator.validate_diff` -/

/-- The routing test for manifest files at the top of `validate_diff`. -/
def isComposeRouted (v : Validator) (fpath : String) : Bool :=
  v.compose_files.contains fpath ||
  (strContains fpath "docker-compose" &&
    (strEnds fpath ".yml" || strEnds fpath ".yaml")) ||
  ["compose.yml", "compose.yaml"].contains (pyBasename fpath)

/-- The per-`FileChange` body of the `validate_diff` loop. -/
def perFileViolations (v : Validator) (ch : FileChange) : List Violation :=
  let fpath := ch.file
  let added := ch.added
  let svc := serviceForPath fpath
  if isComposeRouted v fpath then checkComposeAddedLines v fpath added
  else
    checkBlockedImports v fpath svc added ++
    checkBlockedDbUrls v fpath svc added ++
    checkMigrations v fpath svc added ++
    checkMultiTenantSql v fpath added ++
    checkSqlalchemyReserved v fpath added ++
    checkHardcodedEnvFallbacks v fpath added ++
    checkMockDataUsage v fpath added ++
    checkLiteralReturn v fpath added ++
    checkRedisUsage v fpath svc added

/-- The result dict of `validate_diff`. -/
structure VResult where
  ok : Bool
  violations : List Violation
deriving Repr, DecidableEq

/-- `Validator.validate_diff`. -/
def validateDiff (v : Validator) (diff_text : String) : VResult :=
  let changes := parseUnifiedDiff diff_text
  let violations := changes.flatMap (perFileViolations v)
  { ok := violations.isEmpty, violations := violations }

/-! ## Topology builder (`indexer.py`, `utils.load_yaml_file`,
`utils.merge_compose_services`) -/

/-- Parsed YAML values (what `yaml.safe_load` produces), with mappings as
insertion-ordered association lists. -/
inductive Yaml where
  | null
  | bool (b : Bool)
  | int (n : Int)
  | str (s : String)
  | list (xs : List Yaml)
  | map (kvs : List (String × Yaml))
deriving Repr

/-- Python truthiness of a YAML value. -/
def Yaml.isTruthy : Yaml → Bool
  | .null => false
  | .bool b => b
  | .int n => n != 0
  | .str s => !s.isEmpty
  | .list xs => !xs.isEmpty
  | .map kvs => !kvs.isEmpty

def Yaml.mapOf? : Yaml → Option (List (String × Yaml))
  | .map kvs => some kvs
  | _ => none

/-- Python `d[k] = v`: update the first occurrence in place, else append. -/
def dictSet : List (String × Yaml) → String → Yaml → List (String × Yaml)
  | [], k, v => [(k, v)]
  | (k0, v0) :: t, k, v =>
    if k0 = k then (k0, v) :: t else (k0, v0) :: dictSet t k v

/-- Python `{**b, **o}`. -/
def dictMerge (b o : List (String × Yaml)) : List (String × Yaml) :=
  o.foldl (fun acc kv => dictSet acc kv.1 kv.2) b

/-- The observable outcome of opening and YAML-parsing one file. -/
inductive FileResult where
  | missing
  | openErr
  | parseErr
  | content (v : Yaml)

/-- The Python exceptions these functions can raise. -/
inductive PyErr where
  | ioError
  | yamlError
  | typeError
deriving Repr, DecidableEq

/-- The file-system oracle: per-path open/parse outcome, and the result of
`iter_files_by_glob` (filtered to plain files, repo-relative) per glob
pattern. -/
structure FS where
  files : String → FileResult
  glob : String → List String

/-- `utils.load_yaml_file`: `{}` only when the file does not exist;
`open` or `yaml.safe_load` failures propagate; `safe_load(f) or {}`. -/
def loadYamlFile (fs : FS) (p : String) : Except PyErr Yaml :=
  match fs.files p with
  | .missing => .ok (.map [])
  | .openErr => .error .ioError
  | .parseErr => .error .yamlError
  | .content v => .ok (if v.isTruthy then v else .map [])

/-- `.items()` / `.get` on a value that must be a mapping; anything else
raises (`AttributeError`/`TypeError`, folded into `typeError`). -/
def asMap : Yaml → Except PyErr (List (String × Yaml))
  | .map kvs => .ok kvs
  | _ => .error .typeError

/-- One iteration of the `for name, svc in overlay.services` loop of
`merge_compose_services`: `b_services = merged.setdefault("services", {})`,
`b = b_services.get(name, {})`, `b_services[name] = {**b, **svc}`. -/
def mergeSvcStep (acc : List (String × Yaml)) (nv : String × Yaml) :
    Except PyErr (List (String × Yaml)) := do
  let pair :=
    match acc.lookup "services" with
    | some y => (y, acc)
    | none => (Yaml.map [], dictSet acc "services" (.map []))
  let bsm ← asMap pair.1
  let bM ← asMap ((bsm.lookup nv.1).getD (.map []))
  let sM ← asMap nv.2
  pure (dictSet pair.2 "services" (.map (dictSet bsm nv.1 (.map (dictMerge bM sM)))))

/-- `utils.merge_compose_services` (shallow merge of services, overlay
wins); the source mutates `merged` in place, modelled functionally. -/
def mergeComposeServices (base overlay : Yaml) : Except PyErr Yaml := do
  let bm ← asMap base
  if !overlay.isTruthy then return .map bm
  let om ← asMap overlay
  let svcsY := ((om.lookup "services").getD .null)
  let svcs ← if svcsY.isTruthy then asMap svcsY else pure []
  let merged ← svcs.foldlM mergeSvcStep bm
  return .map merged

/-- The glob test of `_load_compose_and_envs`:
`any(ch in spec for ch in ["*", "?", "["])`. -/
def hasGlobChar (spec : String) : Bool :=
  spec.data.any (fun c => c = '*' || c = '?' || c = '[')

/-- The `expanded` list of `_load_compose_and_envs`. -/
def expandSpecs (fs : FS) (specs : List String) : List String :=
  specs.flatMap (fun spec => if hasGlobChar spec then fs.glob spec else [spec])

/-- The deduplicated, lexicographically sorted file order
(`sorted(expanded)` with a `seen` set). -/
def orderedComposeFiles (fs : FS) (specs : List String) : List String :=
  dedupKeepFirst (pySortStrings (expandSpecs fs specs))

/-- The merge loop of `_load_compose_and_envs`: `merged = file_data or {}`
for the first file, `merged = merge_compose_services(merged or {},
file_data or {})` afterwards. -/
def composeMergeGo (fs : FS) : Yaml → Bool → List String → Except PyErr Yaml
  | merged, _, [] => .ok merged
  | _, true, rel :: rest => do
    let fd ← loadYamlFile fs rel
    composeMergeGo fs (if fd.isTruthy then fd else .map []) false rest
  | merged, false, rel :: rest => do
    let fd ← loadYamlFile fs rel
    let m ← mergeComposeServices (if merged.isTruthy then merged else .map [])
      (if fd.isTruthy then fd else .map [])
    composeMergeGo fs m false rest

/-- The `compose_merged` topology built by `Indexer._load_compose_and_envs`
from the policy's `compose_files` specs. -/
def loadComposeMerged (fs : FS) (specs : List String) : Except PyErr Yaml := do
  let m ← composeMergeGo fs (.map []) true (orderedComposeFiles fs specs)
  return (if m.isTruthy then m else .map [])

/-! ## The Diff Parser contract of spec §4.1, written from the spec's
words, for the refinement claim about `parse_unified_diff`. -/

/-- Spec §4.1: a `+++ b/<path>` header line (a literal `+++ `, optional
further whitespace, `b/`, then a nonempty new-file path). -/
def specIsPlusHeader (line : String) : Option String :=
  match afterLit ['+', '+', '+', ' '] line.data with
  | some rest =>
    match afterLit ['b', '/'] (rest.dropWhile isPySpace) with
    | some p => if p.isEmpty || p.contains '\n' then none else some ⟨p⟩
    | none => none
  | none => none

/-- Spec §4.1: how the scan treats one line. -/
inductive DiffLineKind where
  | close
  | openRec (path : String)
  | add (text : String)
  | remove (text : String)
  | other

/-- Spec §4.1: a `diff ` line closes the open record; a `+++ b/<path>`
line opens a new record; a line starting with `+` (not `+++`) is an
addition with the marker stripped; a line starting with `-` (not `---`)
is a removal; all other lines (hunk headers, context, the `--- a/<path>`
old-path line) are ignored. -/
def specClassify (line : String) : DiffLineKind :=
  if strStarts line "diff " then .close
  else
    match specIsPlusHeader line with
    | some p => .openRec p
    | none =>
      if strStarts line "+" && !strStarts line "+++" then .add (pyDrop line 1)
      else if strStarts line "-" && !strStarts line "---" then .remove (pyDrop line 1)
      else .other

/-- Spec §4.1: the state machine over classified lines. -/
def specStep (st : List FileChange × Option FileChange) (line : String) :
    List FileChange × Option FileChange :=
  match specClassify line with
  | .close => (st.1 ++ st.2.toList, none)
  | .openRec p => (st.1 ++ st.2.toList, some ⟨p, [], []⟩)
  | .add t =>
    match st.2 with
    | some c => (st.1, some { c with added := c.added ++ [t] })
    | none => st
  | .remove t =>
    match st.2 with
    | some c => (st.1, some { c with removed := c.removed ++ [t] })
    | none => st
  | .other => st

/-- Spec §4.1: scan all lines in order and flush a still-open record. -/
def specParseUnifiedDiff (s : String) : List FileChange :=
  let st := (pySplitlines s).foldl specStep ([], none)
  st.1 ++ st.2.toList

/-! ## Theorems -/

lemma data_mk (l : List Char) : (String.mk l).data = l := rfl

lemma dataDiffSp : ("diff " : String).data = ['d', 'i', 'f', 'f', ' '] := rfl

lemma dataDashSp : ("--- " : String).data = ['-', '-', '-', ' '] := rfl

lemma dataPlus3Sp : ("+++ " : String).data = ['+', '+', '+', ' '] := rfl

lemma dataPlus1 : ("+" : String).data = ['+'] := rfl

lemma dataPlus3 : ("+++" : String).data = ['+', '+', '+'] := rfl

lemma dataDash1 : ("-" : String).data = ['-'] := rfl

lemma dataDash3 : ("---" : String).data = ['-', '-', '-'] := rfl

/-- On a line that does start with `+++ `, the source's guarded
`HUNK_FILE_RE` match and the spec's header test agree. -/
lemma matchPlusFile_eq_spec (cs4 : List Char) :
    matchPlusFile ('+' :: '+' :: '+' :: ' ' :: cs4) =
      specIsPlusHeader ⟨'+' :: '+' :: '+' :: ' ' :: cs4⟩ := by
  simp [matchPlusFile, specIsPlusHeader, afterLit, data_mk, isPySpace]

/-- The source's scan step and the spec's classified step agree on every
line. -/
theorem parseStep_eq_specStep (st : List FileChange × Option FileChange)
    (l : String) : parseStep st l = specStep st l := by
  obtain ⟨d⟩ := l
  cases d with
  | nil =>
    simp [parseStep, specStep, specClassify, specIsPlusHeader, strStarts,
      data_mk, dataDiffSp, dataDashSp, dataPlus3Sp, dataPlus1, dataPlus3,
      dataDash1, dataDash3, hasPref, matchPlusFile, afterLit]
  | cons c cs =>
    by_cases hd : c = 'd'
    · subst hd
      by_cases hrest : hasPref ['i', 'f', 'f', ' '] cs = true
      · simp [parseStep, specStep, specClassify, strStarts, data_mk,
          dataDiffSp, hasPref, hrest]
      · simp [parseStep, specStep, specClassify, specIsPlusHeader, strStarts,
          data_mk, dataDiffSp, dataDashSp, dataPlus3Sp, dataPlus1, dataPlus3,
          dataDash1, dataDash3, hasPref, hrest, afterLit]
    · by_cases hp : c = '+'
      · subst hp
        cases cs with
        | nil =>
          simp [parseStep, specStep, specClassify, specIsPlusHeader, strStarts,
            data_mk, dataDiffSp, dataDashSp, dataPlus3Sp, dataPlus1, dataPlus3,
            dataDash1, dataDash3, hasPref, afterLit, pyDrop]
        | cons c2 cs2 =>
          by_cases hp2 : c2 = '+'
          · subst hp2
            cases cs2 with
            | nil =>
              simp [parseStep, specStep, specClassify, specIsPlusHeader, strStarts,
                data_mk, dataDiffSp, dataDashSp, dataPlus3Sp, dataPlus1, dataPlus3,
                dataDash1, dataDash3, hasPref, afterLit, pyDrop]
            | cons c3 cs3 =>
              by_cases hp3 : c3 = '+'
              · subst hp3
                cases cs3 with
                | nil =>
                  simp [parseStep, specStep, specClassify, specIsPlusHeader, strStarts,
                    data_mk, dataDiffSp, dataDashSp, dataPlus3Sp, dataPlus1, dataPlus3,
                    dataDash1, dataDash3, hasPref, afterLit, pyDrop]
                | cons c4 cs4 =>
                  by_cases hsp : c4 = ' '
                  · subst hsp
                    have hmp := matchPlusFile_eq_spec cs4
                    rcases hval : specIsPlusHeader ⟨'+' :: '+' :: '+' :: ' ' :: cs4⟩
                      with _ | p <;>
                      simp [parseStep, specStep, specClassify, strStarts, data_mk,
                        dataDiffSp, dataDashSp, dataPlus3Sp, dataPlus1, dataPlus3,
                        dataDash1, dataDash3, hasPref, hmp, hval, pyDrop]
                  · simp [parseStep, specStep, specClassify, specIsPlusHeader,
                      strStarts, data_mk, dataDiffSp, dataDashSp, dataPlus3Sp,
                      dataPlus1, dataPlus3, dataDash1, dataDash3, hasPref,
                      afterLit, Ne.symm hsp, pyDrop]
              · simp [parseStep, specStep, specClassify, specIsPlusHeader,
                  strStarts, data_mk, dataDiffSp, dataDashSp, dataPlus3Sp,
                  dataPlus1, dataPlus3, dataDash1, dataDash3, hasPref,
                  afterLit, Ne.symm hp3, pyDrop]
          · simp [parseStep, specStep, specClassify, specIsPlusHeader,
              strStarts, data_mk, dataDiffSp, dataDashSp, dataPlus3Sp,
              dataPlus1, dataPlus3, dataDash1, dataDash3, hasPref,
              afterLit, Ne.symm hp2, pyDrop]
      · by_cases hm : c = '-'
        · subst hm
          cases cs with
          | nil =>
            simp [parseStep, specStep, specClassify, specIsPlusHeader, strStarts,
              data_mk, dataDiffSp, dataDashSp, dataPlus3Sp, dataPlus1, dataPlus3,
              dataDash1, dataDash3, hasPref, afterLit, pyDrop]
          | cons c2 cs2 =>
            by_cases hm2 : c2 = '-'
            · subst hm2
              cases cs2 with
              | nil =>
                simp [parseStep, specStep, specClassify, specIsPlusHeader, strStarts,
                  data_mk, dataDiffSp, dataDashSp, dataPlus3Sp, dataPlus1, dataPlus3,
                  dataDash1, dataDash3, hasPref, afterLit, pyDrop]
              | cons c3 cs3 =>
                by_cases hm3 : c3 = '-'
                · subst hm3
                  by_cases h4 : hasPref [' '] cs3 = true
                  · simp [parseStep, specStep, specClassify, specIsPlusHeader,
                      strStarts, data_mk, dataDiffSp, dataDashSp, dataPlus3Sp,
                      dataPlus1, dataPlus3, dataDash1, dataDash3, hasPref,
                      afterLit, h4, pyDrop]
                  · simp [parseStep, specStep, specClassify, specIsPlusHeader,
                      strStarts, data_mk, dataDiffSp, dataDashSp, dataPlus3Sp,
                      dataPlus1, dataPlus3, dataDash1, dataDash3, hasPref,
                      afterLit, h4, pyDrop]
                · simp [parseStep, specStep, specClassify, specIsPlusHeader,
                    strStarts, data_mk, dataDiffSp, dataDashSp, dataPlus3Sp,
                    dataPlus1, dataPlus3, dataDash1, dataDash3, hasPref,
                    afterLit, Ne.symm hm3, pyDrop]
            · simp [parseStep, specStep, specClassify, specIsPlusHeader,
                strStarts, data_mk, dataDiffSp, dataDashSp, dataPlus3Sp,
                dataPlus1, dataPlus3, dataDash1, dataDash3, hasPref,
                afterLit, Ne.symm hm2, pyDrop]
        · simp [parseStep, specStep, specClassify, specIsPlusHeader, strStarts,
            data_mk, dataDiffSp, dataDashSp, dataPlus3Sp, dataPlus1, dataPlus3,
            dataDash1, dataDash3, hasPref, afterLit, Ne.symm hd, Ne.symm hp,
            Ne.symm hm]

/-- C5: `parse_unified_diff` scans lines in order exactly as the spec
describes: `diff ` lines close the open record, `+++ b/<path>` lines open
a new record keyed by the new-file path (`--- a/<path>` is recognized but
not retained), `+`-lines (not `+++`) and `-`-lines (not `---`) append
marker-stripped text to `added`/`removed` of the open record, all other
lines are ignored, and line and record order are preserved — i.e. the
source parser coincides with the spec's classified state machine. -/
theorem claim_C5_parse_unified_diff_refines_spec (s : String) :
    parseUnifiedDiff s = specParseUnifiedDiff s := by
  unfold parseUnifiedDiff specParseUnifiedDiff parseScan
  have h : ∀ (lines : List String) (st : List FileChange × Option FileChange),
      lines.foldl parseStep st = lines.foldl specStep st := by
    intro lines
    induction lines with
    | nil => intro st; rfl
    | cons a t ih =>
      intro st
      simp only [List.foldl_cons, parseStep_eq_specStep, ih]
  rw [h]

/-- C6: `parse_unified_diff` is total (it is a Lean function, so no input
can make it raise), and a record still open when the input ends is
flushed: whenever the line scan ends with an open record, that record is
an element of the returned list. -/
theorem claim_C6_open_record_flushed (s : String) (c : FileChange)
    (h : (parseScan s).2 = some c) : c ∈ parseUnifiedDiff s := by
  show c ∈ (parseScan s).1 ++ (parseScan s).2.toList
  rw [h]
  simp

/-- Witness for C6 at a malformed, truncated diff (no closing header). -/
theorem claim_C6_witness :
    (parseScan "+++ b/foo.py\n+bar").2 =
        some ⟨"foo.py", ["bar"], []⟩ ∧
      (⟨"foo.py", ["bar"], []⟩ : FileChange) ∈
        parseUnifiedDiff "+++ b/foo.py\n+bar" :=
  ⟨rfl, claim_C6_open_record_flushed _ _ rfl⟩

/-- C9: `validate_diff` is deterministic and idempotent: against one
unrefreshed policy snapshot (a fixed `Validator` value) it is a pure
function of the diff text, so two runs on the same text give identical
results (same `ok`, same violations in the same order). -/
theorem claim_C9_validate_diff_idempotent (v : Validator) (d : String) :
    validateDiff v d = validateDiff v d ∧
      (validateDiff v d).ok = (validateDiff v d).ok ∧
      (validateDiff v d).violations = (validateDiff v d).violations :=
  ⟨rfl, rfl, rfl⟩

/-! ### C1: diffs with no added lines -/

lemma flatMap_nil_of {α β : Type} (l : List α) (f : α → List β)
    (h : ∀ x ∈ l, f x = []) : l.flatMap f = [] := by
  induction l with
  | nil => rfl
  | cons a t ih => simp_all

lemma checkBlockedImports_nil (v : Validator) (fpath : String)
    (svc : Option String) : checkBlockedImports v fpath svc [] = [] := by
  cases svc <;> simp [checkBlockedImports]

lemma checkBlockedDbUrls_nil (v : Validator) (fpath : String)
    (svc : Option String) : checkBlockedDbUrls v fpath svc [] = [] := by
  cases svc <;> simp [checkBlockedDbUrls]

lemma checkMultiTenantSql_nil (v : Validator) (fpath : String) :
    checkMultiTenantSql v fpath [] = [] := by
  simp [checkMultiTenantSql]

lemma checkSqlalchemyReserved_nil (v : Validator) (fpath : String) :
    checkSqlalchemyReserved v fpath [] = [] := by
  simp only [checkSqlalchemyReserved]
  split
  · rfl
  · split <;> rfl

lemma checkHardcodedEnvFallbacks_nil (v : Validator) (fpath : String) :
    checkHardcodedEnvFallbacks v fpath [] = [] := by
  simp only [checkHardcodedEnvFallbacks]
  split <;> rfl

lemma checkMockDataUsage_nil (v : Validator) (fpath : String) :
    checkMockDataUsage v fpath [] = [] := by
  simp only [checkMockDataUsage]
  split
  · rfl
  · split
    · rfl
    · split <;> rfl

lemma checkLiteralReturn_nil (v : Validator) (fpath : String) :
    checkLiteralReturn v fpath [] = [] := by
  simp only [checkLiteralReturn]
  split
  · rfl
  · split <;> rfl

lemma checkRedisUsage_nil (v : Validator) (fpath : String)
    (svc : Option String) : checkRedisUsage v fpath svc [] = [] := by
  cases svc with
  | none => rfl
  | some s =>
    simp only [checkRedisUsage]
    split
    · rfl
    · simp [collectClientVars, ttlGo, invGo]

lemma checkComposeAddedLines_nil (v : Validator) (fpath : String) :
    checkComposeAddedLines v fpath [] = [] := rfl

/-- The migrations check alone can fire from the file path with no added
lines. -/
lemma checkMigrations_nil (v : Validator) (fpath : String)
    (svc : Option String)
    (h : (match svc with
          | some s => v.migrations_allowed.contains s
          | none => false) = true ∨
      MIGRATION_DIR_HINTS.all (fun hint => !strContains fpath hint) = true) :
    checkMigrations v fpath svc [] = [] := by
  rcases h with h | h
  · unfold checkMigrations
    rw [if_pos h]
  · have hany : MIGRATION_DIR_HINTS.any (fun hint => strContains fpath hint) = false := by
      simp only [List.all_eq_true] at h
      simp only [List.any_eq_false]
      intro x hx
      have := h x hx
      simpa using this
    simp only [checkMigrations]
    split
    · rfl
    · rw [hany]
      simp

/-- C1 (counterexample): the diff `+++ b/app/migrations/001.py` parses to
one file change with no added lines, yet `validate_diff` (here against
the empty policy) returns `ok = false` with a `blocked_migration`
violation produced from the file path alone, so the claimed
`ok: true, violations: []` fails. -/
theorem claim_C1_counterexample :
    (∀ ch ∈ parseUnifiedDiff "+++ b/app/migrations/001.py\n", ch.added = []) ∧
      validateDiff {} "+++ b/app/migrations/001.py\n" ≠
        { ok := true, violations := [] } ∧
      (validateDiff {} "+++ b/app/migrations/001.py\n").ok = false ∧
      (validateDiff {} "+++ b/app/migrations/001.py\n").violations =
        [{ type := "blocked_migration",
           message := "Migrations are only allowed in services [].",
           file := some "app/migrations/001.py",
           evidence := some "app/migrations/001.py" }] := by
  refine ⟨?_, ?_, rfl, rfl⟩
  · intro ch hch
    have hp : parseUnifiedDiff "+++ b/app/migrations/001.py\n" =
        [⟨"app/migrations/001.py", [], []⟩] := rfl
    rw [hp] at hch
    simp only [List.mem_singleton] at hch
    rw [hch]
  · intro hcontra
    have : (validateDiff {} "+++ b/app/migrations/001.py\n").ok = false := rfl
    rw [hcontra] at this
    simp at this

/-- C1 (amended): for every diff all of whose parsed file changes have an
empty `added` list, `validate_diff` returns `ok: true, violations: []`
provided additionally that, for every changed file, either the file is
routed to the compose scanner, or its service is migrations-allowed, or
its path contains none of the migration directory hints `migrations` /
`alembic` — without that proviso the path-based `blocked_migration` check
can fire with nothing added. -/
theorem claim_C1_amended (v : Validator) (d : String)
    (h : ∀ ch ∈ parseUnifiedDiff d, ch.added = [] ∧
      (isComposeRouted v ch.file = true ∨
       (match serviceForPath ch.file with
        | some s => v.migrations_allowed.contains s
        | none => false) = true ∨
       MIGRATION_DIR_HINTS.all (fun hint => !strContains ch.file hint) = true)) :
    validateDiff v d = { ok := true, violations := [] } := by
  have hnil : ∀ ch ∈ parseUnifiedDiff d, perFileViolations v ch = [] := by
    intro ch hch
    obtain ⟨ha, hroute⟩ := h ch hch
    unfold perFileViolations
    rw [ha]
    by_cases hc : isComposeRouted v ch.file = true
    · rw [if_pos hc, checkComposeAddedLines_nil]
    · rw [if_neg hc]
      have hmig : checkMigrations v ch.file (serviceForPath ch.file) [] = [] := by
        apply checkMigrations_nil
        rcases hroute with hroute | hroute | hroute
        · exact absurd hroute hc
        · exact Or.inl hroute
        · exact Or.inr hroute
      rw [checkBlockedImports_nil, checkBlockedDbUrls_nil, hmig,
        checkMultiTenantSql_nil, checkSqlalchemyReserved_nil,
        checkHardcodedEnvFallbacks_nil, checkMockDataUsage_nil,
        checkLiteralReturn_nil, checkRedisUsage_nil]
      rfl
  show VResult.mk ((parseUnifiedDiff d).flatMap (perFileViolations v)).isEmpty
      ((parseUnifiedDiff d).flatMap (perFileViolations v)) = _
  rw [flatMap_nil_of _ _ hnil]
  rfl

/-- Witness for the amended C1 at a concrete no-added-lines diff. -/
theorem claim_C1_amended_witness :
    validateDiff {} "+++ b/README.md\n" = { ok := true, violations := [] } :=
  claim_C1_amended {} "+++ b/README.md\n" (by decide)

/-! ### C3: unattributable environment lines are dropped -/

/-- Outside the `services:` block with no current service, a line that is
not a `services:` header changes nothing and reports nothing. -/
lemma composeLineStep_no_services (v : Validator) (fpath : String)
    (st : ComposeSt) (raw : String)
    (hin : st.in_services = false) (hcs : st.current_service = none)
    (hline : isServicesHeader (pyRstripNl raw) = false) :
    composeLineStep v fpath st raw = (st, []) := by
  simp [composeLineStep, composeServicesBlock, hline, hin, hcs]

/-- C3: for every manifest diff whose added lines contain environment
entries (e.g. a `DATABASE_URL` line) but not the enclosing `services:`
header (and hence no service-name attribution), the compose scanner
neither raises (it is a total function) nor reports any violation: with
no added line matching `^\s*services:\s*$`, the scanner never enters the
services block, never attributes a service, and returns no violations —
the lines are dropped as unattributable. -/
theorem claim_C3_unattributable_lines_dropped (v : Validator) (fpath : String)
    (added : List String)
    (h : ∀ l ∈ added, isServicesHeader (pyRstripNl l) = false) :
    checkComposeAddedLines v fpath added = [] := by
  unfold checkComposeAddedLines
  have go : ∀ (ls : List String),
      (∀ l ∈ ls, isServicesHeader (pyRstripNl l) = false) →
      ∀ (st : ComposeSt) (acc : List Violation),
        st.in_services = false → st.current_service = none →
        (ls.foldl
          (fun (p : ComposeSt × List Violation) raw =>
            let r := composeLineStep v fpath p.1 raw
            (r.1, p.2 ++ r.2)) (st, acc)).2 = acc := by
    intro ls
    induction ls with
    | nil => intro _ st acc _ _; rfl
    | cons a t ih =>
      intro hl st acc hin hcs
      have hstep := composeLineStep_no_services v fpath st a hin hcs
        (hl a (by simp))
      simp only [List.foldl_cons, hstep, List.append_nil]
      exact ih (fun l hl2 => hl l (by simp [hl2])) st acc hin hcs
  exact go added h {} [] rfl rfl

/-- Witness for C3: the `DATABASE_URL` environment line added without its
enclosing headers produces no violation. -/
theorem claim_C3_witness :
    checkComposeAddedLines {} "docker-compose.yml"
      ["      - DATABASE_URL=postgresql://db/x"] = [] :=
  claim_C3_unattributable_lines_dropped {} "docker-compose.yml"
    ["      - DATABASE_URL=postgresql://db/x"] (by decide)

/-! ### C4 and C8: attributed environment entries under an added service
block -/

/-- The canonical manifest diff of the C4 test property: a service block,
an `environment:` header, and a `- DATABASE_URL=...` list item, all added
in one file. -/
def c4Diff : String :=
  "+++ b/docker-compose.yml\n+services:\n+  app:\n+    environment:\n+      - DATABASE_URL=postgresql://user:pass@db:5432/app"

/-- The canonical manifest diff of the C8 test property: a mapping-style
`REDIS_DB: 3` entry under an added service block. -/
def c8Diff : String :=
  "+++ b/docker-compose.yml\n+services:\n+  app:\n+    environment:\n+      REDIS_DB: 3"

lemma isComposeRouted_dc (v : Validator) :
    isComposeRouted v "docker-compose.yml" = true := by
  unfold isComposeRouted
  rw [show (strContains "docker-compose.yml" "docker-compose" &&
      (strEnds "docker-compose.yml" ".yml" ||
        strEnds "docker-compose.yml" ".yaml")) = true from rfl]
  simp

/-- C4: for the manifest diff that adds, in one file, a service block
(`app`) together with an `environment:` header and the list item
`- DATABASE_URL=postgresql://...` under it, and any policy that does not
mark `app` as `allowed_db_access`, `validate_diff` returns exactly one
violation of type `compose_blocked_db_access`, attributed to that file. -/
theorem claim_C4_added_service_db_url_blocked (v : Validator)
    (hdb : (svcRule v "app").allowed_db_access = false) :
    ((validateDiff v c4Diff).violations.filter
        (fun vi => vi.type == "compose_blocked_db_access")) =
      [{ type := "compose_blocked_db_access",
         message := "Database URL detected in environment for service 'app', which is not allowed.",
         file := some "docker-compose.yml",
         evidence := some "- DATABASE_URL=postgresql://user:pass@db:5432/app" }] := by
  have hviol : (validateDiff v c4Diff).violations =
      envEntryViolations v "app" "docker-compose.yml"
        "      - DATABASE_URL=postgresql://user:pass@db:5432/app"
        "DATABASE_URL" "postgresql://user:pass@db:5432/app" blockStyleActual := by
    show ((parseUnifiedDiff c4Diff).flatMap (perFileViolations v)) = _
    rw [show parseUnifiedDiff c4Diff =
      [⟨"docker-compose.yml",
        ["services:", "  app:", "    environment:",
         "      - DATABASE_URL=postgresql://user:pass@db:5432/app"], []⟩] from rfl]
    simp only [List.flatMap_cons, List.flatMap_nil, List.append_nil]
    unfold perFileViolations
    rw [if_pos (isComposeRouted_dc v)]
    rfl
  rw [hviol]
  unfold envEntryViolations
  rcases hb : ((svcRule v "app").blocked_env_vars ++
      composeBlockedFor v "app").contains "DATABASE_URL" <;>
    rcases hr : (svcRule v "app").redis_db with _ | raw <;>
    [skip; rcases hi : pyIntOfString raw with _ | e; skip;
     rcases hi : pyIntOfString raw with _ | e] <;>
    simp [hb, hr, hdb, *,
      show pyStrip "      - DATABASE_URL=postgresql://user:pass@db:5432/app" =
        "- DATABASE_URL=postgresql://user:pass@db:5432/app" from rfl,
      show (DB_URL_HINTS.any (fun h => strContains
        (pyLower "postgresql://user:pass@db:5432/app") h)) = true from rfl,
      show pyUpper (pyStrip "DATABASE_URL") = "DATABASE_URL" from rfl,
      show (strEnds "DATABASE_URL" "REDIS_DB") = false from rfl,
      show (strEnds "DATABASE_URL" "REDIS_URL") = false from rfl]

/-- Witness for C4 at the empty policy (no `allowed_db_access` anywhere). -/
theorem claim_C4_witness :
    ((validateDiff {} c4Diff).violations.filter
        (fun vi => vi.type == "compose_blocked_db_access")) =
      [{ type := "compose_blocked_db_access",
         message := "Database URL detected in environment for service 'app', which is not allowed.",
         file := some "docker-compose.yml",
         evidence := some "- DATABASE_URL=postgresql://user:pass@db:5432/app" }] :=
  claim_C4_added_service_db_url_blocked {} rfl

/-- C8: for the manifest diff that adds, under an added service block
(`app`), the mapping-style environment line `REDIS_DB: 3`, and any policy
whose entry for `app` mandates `redis_db: 2`, `validate_diff` returns
exactly one violation of type `compose_redis_db_mismatch` for that file. -/
theorem claim_C8_redis_db_mismatch (v : Validator)
    (hr : (svcRule v "app").redis_db = some "2") :
    ((validateDiff v c8Diff).violations.filter
        (fun vi => vi.type == "compose_redis_db_mismatch")) =
      [{ type := "compose_redis_db_mismatch",
         message := "Service 'app' must use REDIS_DB=2 per policy.",
         file := some "docker-compose.yml",
         evidence := some "REDIS_DB: 3" }] := by
  have hviol : (validateDiff v c8Diff).violations =
      envEntryViolations v "app" "docker-compose.yml"
        "      REDIS_DB: 3" "REDIS_DB" "3" blockStyleActual := by
    show ((parseUnifiedDiff c8Diff).flatMap (perFileViolations v)) = _
    rw [show parseUnifiedDiff c8Diff =
      [⟨"docker-compose.yml",
        ["services:", "  app:", "    environment:", "      REDIS_DB: 3"], []⟩]
      from rfl]
    simp only [List.flatMap_cons, List.flatMap_nil, List.append_nil]
    unfold perFileViolations
    rw [if_pos (isComposeRouted_dc v)]
    rfl
  rw [hviol]
  unfold envEntryViolations
  by_cases hb : ("REDIS_DB" ∈ (svcRule v "app").blocked_env_vars ∨
      "REDIS_DB" ∈ composeBlockedFor v "app") <;>
    simp [hb, hr,
      show pyStrip "      REDIS_DB: 3" = "REDIS_DB: 3" from rfl,
      show (DB_URL_HINTS.any (fun h => strContains (pyLower "3") h)) = false
        from rfl,
      show pyUpper (pyStrip "REDIS_DB") = "REDIS_DB" from rfl,
      show pyIntOfString "2" = some 2 from rfl,
      show (strEnds "REDIS_DB" "REDIS_DB") = true from rfl,
      show (strEnds "REDIS_DB" "REDIS_URL") = false from rfl,
      show blockStyleActual "3" = some 3 from rfl,
      show toString (2 : Int) = "2" from rfl]

/-- Witness for C8 at a policy mandating `redis_db: 2` for `app`. -/
theorem claim_C8_witness :
    ((validateDiff { services := [("app", { redis_db := some "2" })] }
        c8Diff).violations.filter
        (fun vi => vi.type == "compose_redis_db_mismatch")) =
      [{ type := "compose_redis_db_mismatch",
         message := "Service 'app' must use REDIS_DB=2 per policy.",
         file := some "docker-compose.yml",
         evidence := some "REDIS_DB: 3" }] :=
  claim_C8_redis_db_mismatch { services := [("app", { redis_db := some "2" })] }
    rfl

/-! ### C10: every violation's `file` field names the change that
produced it -/

/-- `hasFile fpath` holds of the violations a per-file check may emit. -/
def hasFile (fpath : String) (vi : Violation) : Prop := vi.file = some fpath

lemma flatMap_hasFile {α : Type} {l : List α} {f : α → List Violation}
    {fpath : String} (h : ∀ x ∈ l, ∀ vi ∈ f x, hasFile fpath vi) :
    ∀ vi ∈ l.flatMap f, hasFile fpath vi := by
  intro vi hvi
  rw [List.mem_flatMap] at hvi
  obtain ⟨x, hx, hvi⟩ := hvi
  exact h x hx vi hvi

lemma importLine_hasFile (blocked : List String) (s fpath line : String) :
    ∀ vi ∈ importLineViolations blocked s fpath line, hasFile fpath vi := by
  intro vi hvi
  simp only [importLineViolations] at hvi
  split at hvi
  · refine flatMap_hasFile (fun part _ vi hvi => ?_) vi hvi
    split at hvi <;> simp_all [blockedImportViolation, hasFile]
  · split at hvi
    · split at hvi
      · split at hvi <;> simp_all [blockedImportViolation, hasFile]
      · simp at hvi
    · simp at hvi

lemma checkBlockedImports_hasFile (v : Validator) (fpath : String)
    (svc : Option String) (added : List String) :
    ∀ vi ∈ checkBlockedImports v fpath svc added, hasFile fpath vi := by
  intro vi hvi
  simp only [checkBlockedImports] at hvi
  rcases svc with _ | s
  · simp at hvi
  · exact flatMap_hasFile
      (fun line _ => importLine_hasFile _ s fpath line) vi hvi

lemma checkBlockedDbUrls_hasFile (v : Validator) (fpath : String)
    (svc : Option String) (added : List String) :
    ∀ vi ∈ checkBlockedDbUrls v fpath svc added, hasFile fpath vi := by
  intro vi hvi
  cases svc with
  | none => simp [checkBlockedDbUrls] at hvi
  | some s =>
    simp only [checkBlockedDbUrls] at hvi
    split at hvi
    · simp at hvi
    · refine flatMap_hasFile (fun line _ vi hvi => ?_) vi hvi
      split at hvi <;> simp_all [hasFile]

lemma checkMigrations_hasFile (v : Validator) (fpath : String)
    (svc : Option String) (added : List String) :
    ∀ vi ∈ checkMigrations v fpath svc added, hasFile fpath vi := by
  intro vi hvi
  simp only [checkMigrations] at hvi
  split at hvi
  · simp at hvi
  · split at hvi
    · simp_all [hasFile]
    · refine flatMap_hasFile (fun line _ vi hvi => ?_) vi hvi
      split at hvi <;> simp_all [hasFile]

lemma checkMultiTenantSql_hasFile (v : Validator) (fpath : String)
    (added : List String) :
    ∀ vi ∈ checkMultiTenantSql v fpath added, hasFile fpath vi := by
  intro vi hvi
  simp only [checkMultiTenantSql] at hvi
  refine flatMap_hasFile (fun line _ vi hvi => ?_) vi hvi
  split at hvi <;> simp_all [hasFile]

lemma checkSqlalchemyReserved_hasFile (v : Validator) (fpath : String)
    (added : List String) :
    ∀ vi ∈ checkSqlalchemyReserved v fpath added, hasFile fpath vi := by
  intro vi hvi
  simp only [checkSqlalchemyReserved] at hvi
  split at hvi
  · simp at hvi
  · split at hvi
    · simp at hvi
    · refine flatMap_hasFile (fun line _ vi hvi => ?_) vi hvi
      split at hvi
      · simp_all [hasFile]
      · split at hvi <;> simp_all [hasFile]

lemma checkHardcodedEnvFallbacks_hasFile (v : Validator) (fpath : String)
    (added : List String) :
    ∀ vi ∈ checkHardcodedEnvFallbacks v fpath added, hasFile fpath vi := by
  intro vi hvi
  simp only [checkHardcodedEnvFallbacks] at hvi
  split at hvi
  · simp at hvi
  · refine flatMap_hasFile (fun line _ vi hvi => ?_) vi hvi
    split at hvi
    · simp at hvi
    · split at hvi <;> simp_all [hasFile]

lemma checkMockDataUsage_hasFile (v : Validator) (fpath : String)
    (added : List String) :
    ∀ vi ∈ checkMockDataUsage v fpath added, hasFile fpath vi := by
  intro vi hvi
  simp only [checkMockDataUsage] at hvi
  split at hvi
  · simp at hvi
  · split at hvi
    · simp at hvi
    · split at hvi
      · simp at hvi
      · refine flatMap_hasFile (fun line _ vi hvi => ?_) vi hvi
        split at hvi
        · simp at hvi
        · split at hvi
          · simp at hvi
          · split at hvi <;> simp_all [hasFile]

lemma litReturnWindow_hasFile (is_py is_js : Bool) (fpath : String)
    (w : List String) :
    ∀ vi ∈ litReturnWindow is_py is_js fpath w, hasFile fpath vi := by
  induction w with
  | nil => intro vi hvi; simp [litReturnWindow] at hvi
  | cons a t ih =>
    intro vi hvi
    simp only [litReturnWindow] at hvi
    split at hvi
    · simp_all [hasFile]
    · split at hvi
      · simp_all [hasFile]
      · exact ih vi hvi

lemma litReturnGo_hasFile (is_py is_js : Bool) (fpath : String)
    (ls : List String) :
    ∀ vi ∈ litReturnGo is_py is_js fpath ls, hasFile fpath vi := by
  induction ls with
  | nil => intro vi hvi; simp [litReturnGo] at hvi
  | cons a t ih =>
    intro vi hvi
    simp only [litReturnGo] at hvi
    rw [List.mem_append] at hvi
    rcases hvi with hvi | hvi
    · split at hvi
      · exact litReturnWindow_hasFile is_py is_js fpath _ vi hvi
      · simp at hvi
    · exact ih vi hvi

lemma checkLiteralReturn_hasFile (v : Validator) (fpath : String)
    (added : List String) :
    ∀ vi ∈ checkLiteralReturn v fpath added, hasFile fpath vi := by
  intro vi hvi
  simp only [checkLiteralReturn] at hvi
  split at hvi
  · simp at hvi
  · split at hvi
    · simp at hvi
    · exact litReturnGo_hasFile _ _ fpath added vi hvi

lemma ttlGo_hasFile (hint : Bool) (client_vars : List String)
    (svc fpath : String) (ls : List String) :
    ∀ vi ∈ ttlGo hint client_vars svc fpath ls, hasFile fpath vi := by
  induction ls with
  | nil => intro vi hvi; simp [ttlGo] at hvi
  | cons a t ih =>
    intro vi hvi
    simp only [ttlGo] at hvi
    rw [List.mem_append] at hvi
    rcases hvi with hvi | hvi
    · split at hvi
      · split at hvi <;> simp_all [ttlViolation, hasFile]
      · split at hvi
        · split at hvi
          · split at hvi
            · simp at hvi
            · split at hvi <;> simp_all [ttlViolation, hasFile]
          · simp at hvi
        · simp at hvi
    · exact ih vi hvi

lemma invGo_hasFile (hint : Bool)
    (client_vars inv_calls mod_inv hints : List String) (svc fpath : String)
    (ls : List String) :
    ∀ vi ∈ invGo hint client_vars inv_calls mod_inv hints svc fpath ls,
      hasFile fpath vi := by
  induction ls with
  | nil => intro vi hvi; simp [invGo] at hvi
  | cons a t ih =>
    intro vi hvi
    simp only [invGo] at hvi
    rw [List.mem_append] at hvi
    rcases hvi with hvi | hvi
    · split at hvi
      · split at hvi <;> simp_all [invViolation, hasFile]
      · simp at hvi
    · exact ih vi hvi

lemma checkRedisUsage_hasFile (v : Validator) (fpath : String)
    (svc : Option String) (added : List String) :
    ∀ vi ∈ checkRedisUsage v fpath svc added, hasFile fpath vi := by
  intro vi hvi
  cases svc with
  | none => simp [checkRedisUsage] at hvi
  | some s =>
    simp only [checkRedisUsage] at hvi
    split at hvi
    · simp at hvi
    · rw [List.mem_append] at hvi
      rcases hvi with hvi | hvi
      · rw [List.mem_append] at hvi
        rcases hvi with hvi | hvi
        · rw [List.mem_append] at hvi
          rcases hvi with hvi | hvi
          · rw [List.mem_append] at hvi
            rcases hvi with hvi | hvi
            · -- ttl
              split at hvi
              · exact ttlGo_hasFile _ _ s fpath added vi hvi
              · simp at hvi
            · -- module-style key namespacing
              refine flatMap_hasFile (fun line _ vi hvi => ?_) vi hvi
              split at hvi
              · split at hvi <;> simp_all [nsViolation, hasFile]
              · simp at hvi
          · -- var-style key namespacing
            split at hvi
            · refine flatMap_hasFile (fun var _ vi hvi => ?_) vi hvi
              refine flatMap_hasFile (fun line _ vi hvi => ?_) vi hvi
              split at hvi
              · split at hvi <;> simp_all [nsViolation, hasFile]
              · simp at hvi
            · simp at hvi
        · -- persistent commands
          split at hvi
          · refine flatMap_hasFile (fun line _ vi hvi => ?_) vi hvi
            refine flatMap_hasFile (fun cmd _ vi hvi => ?_) vi hvi
            rw [List.mem_append] at hvi
            rcases hvi with hvi | hvi
            · split at hvi <;> simp_all [persistViolation, hasFile]
            · split at hvi
              · split at hvi <;> simp_all [persistViolation, hasFile]
              · simp at hvi
          · simp at hvi
      · -- invalidation
        split at hvi
        · exact invGo_hasFile _ _ _ _ _ s fpath added vi hvi
        · simp at hvi

lemma envEntryViolations_hasFile (v : Validator)
    (cs fpath line key value : String) (actualOf : String → Option Int) :
    ∀ vi ∈ envEntryViolations v cs fpath line key value actualOf,
      hasFile fpath vi := by
  intro vi hvi
  simp only [envEntryViolations] at hvi
  rw [List.mem_append] at hvi
  rcases hvi with hvi | hvi
  · rw [List.mem_append] at hvi
    rcases hvi with hvi | hvi
    · split at hvi <;> simp_all [hasFile]
    · split at hvi <;> simp_all [hasFile]
  · split at hvi
    · simp at hvi
    · split at hvi
      · simp at hvi
      · rw [List.mem_append] at hvi
        rcases hvi with hvi | hvi
        · split at hvi
          · split at hvi
            · split at hvi <;> simp_all [hasFile]
            · simp at hvi
          · simp at hvi
        · split at hvi
          · split at hvi
            · split at hvi <;> simp_all [hasFile]
            · simp at hvi
          · simp at hvi

lemma inlineListItemViolations_hasFile (v : Validator)
    (cs fpath line it : String) :
    ∀ vi ∈ inlineListItemViolations v cs fpath line it, hasFile fpath vi := by
  intro vi hvi
  simp only [inlineListItemViolations] at hvi
  exact envEntryViolations_hasFile v cs fpath line _ _ _ vi hvi

lemma inlineDictItemViolations_hasFile (v : Validator)
    (cs fpath line pr : String) :
    ∀ vi ∈ inlineDictItemViolations v cs fpath line pr, hasFile fpath vi := by
  intro vi hvi
  simp only [inlineDictItemViolations] at hvi
  split at hvi
  · simp at hvi
  · exact envEntryViolations_hasFile v cs fpath line _ _ _ vi hvi

lemma composeKeyStep_hasFile (v : Validator) (fpath : String)
    (st₁ : ComposeSt) (line key : String) (res : ComposeSt × List Violation)
    (heq : composeKeyStep v fpath st₁ line key = Sum.inl res) :
    ∀ vi ∈ res.2, hasFile fpath vi := by
  intro vi hvi
  simp only [composeKeyStep] at heq
  split at heq
  · simp only [Sum.inl.injEq] at heq
    rw [← heq] at hvi
    simp at hvi
  · split at heq
    · split at heq
      · simp only [Sum.inl.injEq] at heq
        rw [← heq] at hvi
        simp at hvi
      · split at heq
        · simp only [Sum.inl.injEq] at heq
          rw [← heq] at hvi
          simp at hvi
        · split at heq
          · split at heq
            · simp only [Sum.inl.injEq] at heq
              rw [← heq] at hvi
              simp only [] at hvi
              split at hvi <;> simp_all [envFileViolation, hasFile]
            · simp only [Sum.inl.injEq] at heq
              rw [← heq] at hvi
              simp at hvi
          · simp at heq
    · simp at heq

lemma composeServicesBlock_hasFile (v : Validator) (fpath : String)
    (st : ComposeSt) (line : String) (res : ComposeSt × List Violation)
    (heq : composeServicesBlock v fpath st line = Sum.inl res) :
    ∀ vi ∈ res.2, hasFile fpath vi := by
  simp only [composeServicesBlock] at heq
  split at heq
  · split at heq
    · exact composeKeyStep_hasFile v fpath _ line _ res heq
    · simp at heq
  · simp at heq

lemma composeEnvPart_hasFile (v : Validator) (fpath : String)
    (st₁ : ComposeSt) (cs line : String) :
    ∀ vi ∈ (composeEnvPart v fpath st₁ cs line).2, hasFile fpath vi := by
  intro vi hvi
  simp only [composeEnvPart] at hvi
  split at hvi
  · refine flatMap_hasFile
      (fun it _ => inlineListItemViolations_hasFile v cs fpath line it) vi hvi
  · split at hvi
    · refine flatMap_hasFile
        (fun pr _ => inlineDictItemViolations_hasFile v cs fpath line pr) vi hvi
    · split at hvi
      · simp at hvi
      · split at hvi
        · split at hvi
          · simp at hvi
          · split at hvi
            · exact envEntryViolations_hasFile v cs fpath line _ _ _ vi hvi
            · split at hvi
              · exact envEntryViolations_hasFile v cs fpath line _ _ _ vi hvi
              · simp at hvi
        · split at hvi
          · simp at hvi
          · split at hvi
            · exact envEntryViolations_hasFile v cs fpath line _ _ _ vi hvi
            · split at hvi
              · exact envEntryViolations_hasFile v cs fpath line _ _ _ vi hvi
              · simp at hvi

lemma composeLineStep_hasFile (v : Validator) (fpath : String)
    (st : ComposeSt) (raw : String) :
    ∀ vi ∈ (composeLineStep v fpath st raw).2, hasFile fpath vi := by
  intro vi hvi
  simp only [composeLineStep] at hvi
  split at hvi
  · simp at hvi
  · split at hvi
    · next res heq => exact composeServicesBlock_hasFile v fpath st _ res heq vi hvi
    · split at hvi
      · simp at hvi
      · exact composeEnvPart_hasFile v fpath _ _ _ vi hvi

lemma checkComposeAddedLines_hasFile (v : Validator) (fpath : String)
    (added : List String) :
    ∀ vi ∈ checkComposeAddedLines v fpath added, hasFile fpath vi := by
  unfold checkComposeAddedLines
  have go : ∀ (ls : List String) (st : ComposeSt) (acc : List Violation),
      (∀ vi ∈ acc, hasFile fpath vi) →
      ∀ vi ∈ (ls.foldl
        (fun (p : ComposeSt × List Violation) raw =>
          let r := composeLineStep v fpath p.1 raw
          (r.1, p.2 ++ r.2)) (st, acc)).2, hasFile fpath vi := by
    intro ls
    induction ls with
    | nil => intro st acc hacc vi hvi; exact hacc vi hvi
    | cons a t ih =>
      intro st acc hacc vi hvi
      simp only [List.foldl_cons] at hvi
      refine ih _ _ ?_ vi hvi
      intro vj hvj
      rw [List.mem_append] at hvj
      rcases hvj with hvj | hvj
      · exact hacc vj hvj
      · exact composeLineStep_hasFile v fpath st a vj hvj
  exact go added {} [] (by simp)

lemma perFileViolations_hasFile (v : Validator) (ch : FileChange) :
    ∀ vi ∈ perFileViolations v ch, hasFile ch.file vi := by
  intro vi hvi
  simp only [perFileViolations] at hvi
  split at hvi
  · exact checkComposeAddedLines_hasFile v ch.file ch.added vi hvi
  · rw [List.mem_append] at hvi
    rcases hvi with hvi | hvi
    · rw [List.mem_append] at hvi
      rcases hvi with hvi | hvi
      · rw [List.mem_append] at hvi
        rcases hvi with hvi | hvi
        · rw [List.mem_append] at hvi
          rcases hvi with hvi | hvi
          · rw [List.mem_append] at hvi
            rcases hvi with hvi | hvi
            · rw [List.mem_append] at hvi
              rcases hvi with hvi | hvi
              · rw [List.mem_append] at hvi
                rcases hvi with hvi | hvi
                · rw [List.mem_append] at hvi
                  rcases hvi with hvi | hvi
                  · exact checkBlockedImports_hasFile v ch.file _ ch.added vi hvi
                  · exact checkBlockedDbUrls_hasFile v ch.file _ ch.added vi hvi
                · exact checkMigrations_hasFile v ch.file _ ch.added vi hvi
              · exact checkMultiTenantSql_hasFile v ch.file ch.added vi hvi
            · exact checkSqlalchemyReserved_hasFile v ch.file ch.added vi hvi
          · exact checkHardcodedEnvFallbacks_hasFile v ch.file ch.added vi hvi
        · exact checkMockDataUsage_hasFile v ch.file ch.added vi hvi
      · exact checkLiteralReturn_hasFile v ch.file ch.added vi hvi
    · exact checkRedisUsage_hasFile v ch.file _ ch.added vi hvi

/-- A file change whose `file` field was read out of a `+++ b/<path>`
header among the given lines. -/
def originatesFrom (ls : List String) (ch : FileChange) : Prop :=
  ∃ l ∈ ls, strStarts l "+++ " = true ∧ matchPlusFile l.data = some ch.file

lemma parseStep_origin (L : List String)
    (st : List FileChange × Option FileChange) (a : String) (ha : a ∈ L)
    (h1 : ∀ ch ∈ st.1, originatesFrom L ch)
    (h2 : ∀ ch, st.2 = some ch → originatesFrom L ch) :
    (∀ ch ∈ (parseStep st a).1, originatesFrom L ch) ∧
      (∀ ch, (parseStep st a).2 = some ch → originatesFrom L ch) := by
  have hflush : ∀ ch ∈ st.1 ++ st.2.toList, originatesFrom L ch := by
    intro ch hch
    rw [List.mem_append] at hch
    rcases hch with hch | hch
    · exact h1 ch hch
    · cases hst : st.2 with
      | none => rw [hst] at hch; simp at hch
      | some c =>
        rw [hst] at hch
        simp at hch
        rw [hch]
        exact h2 c hst
  unfold parseStep
  split
  · exact ⟨hflush, by intro ch hc; simp at hc⟩
  · split
    · exact ⟨h1, h2⟩
    · split
      · -- `+++ ` line
        split
        next hplus p heq =>
          refine ⟨hflush, ?_⟩
          intro ch hc
          simp only [Option.some.injEq] at hc
          refine ⟨a, ha, by assumption, ?_⟩
          rw [← hc]
          exact heq
        next => exact ⟨h1, h2⟩
      · split
        · -- added line
          split
          next c heq =>
            refine ⟨h1, ?_⟩
            intro ch hc
            simp only [Option.some.injEq] at hc
            have horig := h2 c heq
            rw [← hc]
            exact horig
          next => exact ⟨h1, h2⟩
        · split
          · -- removed line
            split
            next c heq =>
              refine ⟨h1, ?_⟩
              intro ch hc
              simp only [Option.some.injEq] at hc
              have horig := h2 c heq
              rw [← hc]
              exact horig
            next => exact ⟨h1, h2⟩
          · exact ⟨h1, h2⟩

lemma parse_origin_go (L : List String) :
    ∀ (lines : List String), (∀ l ∈ lines, l ∈ L) →
    ∀ (st : List FileChange × Option FileChange),
    (∀ ch ∈ st.1, originatesFrom L ch) →
    (∀ ch, st.2 = some ch → originatesFrom L ch) →
    (∀ ch ∈ (lines.foldl parseStep st).1, originatesFrom L ch) ∧
      (∀ ch, (lines.foldl parseStep st).2 = some ch → originatesFrom L ch) := by
  intro lines
  induction lines with
  | nil => intro _ st h1 h2; exact ⟨h1, h2⟩
  | cons a t ih =>
    intro hsub st h1 h2
    have hstep := parseStep_origin L st a (hsub a (by simp)) h1 h2
    simp only [List.foldl_cons]
    exact ih (fun l hl => hsub l (by simp [hl])) (parseStep st a) hstep.1 hstep.2

lemma parseUnifiedDiff_origin (s : String) :
    ∀ ch ∈ parseUnifiedDiff s, originatesFrom (pySplitlines s) ch := by
  intro ch hch
  have h := parse_origin_go (pySplitlines s) (pySplitlines s)
    (fun l hl => hl) ([], none) (by simp) (by simp)
  have hch2 : ch ∈ (parseScan s).1 ++ (parseScan s).2.toList := hch
  rw [List.mem_append] at hch2
  rcases hch2 with hch2 | hch2
  · exact h.1 ch hch2
  · rcases hscan : (parseScan s).2 with _ | c
    · rw [hscan] at hch2; simp at hch2
    · rw [hscan] at hch2
      simp at hch2
      rw [hch2]
      exact h.2 c hscan

/-! ### C2: I/O degradation during refresh -/

/-- A file system with one unparsable manifest (`a.yml`), one good
manifest (`b.yml`) and one existing-but-unreadable file (`locked.yml`). -/
def fsBad : FS :=
  { files := fun p =>
      if p = "a.yml" then .parseErr
      else if p = "b.yml" then
        .content (.map [("services", .map [("app", .map [("image", .str "x")])])])
      else if p = "locked.yml" then .openErr
      else .missing,
    glob := fun _ => [] }

/-- C2 (counterexample): `load_yaml_file` degrades to `{}` only for a
*missing* file. A file that exists but cannot be opened raises instead of
yielding `{}`, and a single unparsable manifest (`a.yml`) makes the whole
compose merge of `_load_compose_and_envs` raise, so the remaining
manifest (`b.yml`) is not merged. -/
theorem claim_C2_counterexample :
    loadYamlFile fsBad "locked.yml" = .error .ioError ∧
      loadYamlFile fsBad "locked.yml" ≠ .ok (.map []) ∧
      orderedComposeFiles fsBad ["a.yml", "b.yml"] = ["a.yml", "b.yml"] ∧
      loadComposeMerged fsBad ["a.yml", "b.yml"] = .error .yamlError := by
  refine ⟨rfl, ?_, rfl, rfl⟩
  intro hcontra
  rw [show loadYamlFile fsBad "locked.yml" = Except.error PyErr.ioError from rfl]
    at hcontra
  exact Except.noConfusion hcontra

/-- The merge loop of `_load_compose_and_envs` has no per-file exception
handling: if any file of the list fails to open or to parse, the whole
fold raises (either that file's error, or an earlier error met first). -/
lemma composeMergeGo_error (fs : FS) :
    ∀ (l : List String) (merged : Yaml) (first : Bool),
      (∃ rel ∈ l, fs.files rel = .openErr ∨ fs.files rel = .parseErr) →
      ∃ e, composeMergeGo fs merged first l = .error e := by
  intro l
  induction l with
  | nil =>
    intro merged first h
    obtain ⟨rel, hmem, _⟩ := h
    simp at hmem
  | cons rel rest ih =>
    intro merged first h
    obtain ⟨r, hmem, hbad⟩ := h
    rcases List.mem_cons.mp hmem with heq | hmem2
    · subst heq
      have hload : ∃ e, loadYamlFile fs r = .error e := by
        rcases hbad with h | h
        · exact ⟨.ioError, by unfold loadYamlFile; rw [h]⟩
        · exact ⟨.yamlError, by unfold loadYamlFile; rw [h]⟩
      obtain ⟨e, he⟩ := hload
      refine ⟨e, ?_⟩
      cases first <;> simp [composeMergeGo, he, Bind.bind, Except.bind]
    · cases first
      · cases hld : loadYamlFile fs rel with
        | error e => exact ⟨e, by simp [composeMergeGo, hld, Bind.bind, Except.bind]⟩
        | ok fd =>
          cases hmg : mergeComposeServices (if merged.isTruthy then merged else .map [])
              (if fd.isTruthy then fd else .map []) with
          | error e =>
            exact ⟨e, by simp [composeMergeGo, hld, hmg, Bind.bind, Except.bind]⟩
          | ok m =>
            obtain ⟨e, he⟩ := ih m false ⟨r, hmem2, hbad⟩
            exact ⟨e, by simp [composeMergeGo, hld, hmg, Bind.bind, Except.bind, he]⟩
      · cases hld : loadYamlFile fs rel with
        | error e => exact ⟨e, by simp [composeMergeGo, hld, Bind.bind, Except.bind]⟩
        | ok fd =>
          obtain ⟨e, he⟩ := ih (if fd.isTruthy then fd else .map []) false ⟨r, hmem2, hbad⟩
          exact ⟨e, by simp [composeMergeGo, hld, Bind.bind, Except.bind, he]⟩

/-- C2 (amended): reading a policy or manifest file that is *missing*
yields the empty value `{}` instead of raising; but a manifest that
exists and fails to open raises an I/O error, one that fails to
YAML-parse raises a YAML error, and a single such bad manifest anywhere
in the compose merge order aborts the whole merge of
`_load_compose_and_envs`: no topology is built from the remaining
manifests. -/
theorem claim_C2_amended :
    (∀ (fs : FS) (p : String), fs.files p = .missing →
      loadYamlFile fs p = .ok (.map [])) ∧
    (∀ (fs : FS) (p : String), fs.files p = .openErr →
      loadYamlFile fs p = .error .ioError) ∧
    (∀ (fs : FS) (p : String), fs.files p = .parseErr →
      loadYamlFile fs p = .error .yamlError) ∧
    (∀ (fs : FS) (specs : List String) (rel : String),
      rel ∈ orderedComposeFiles fs specs →
      fs.files rel = .openErr ∨ fs.files rel = .parseErr →
      ∃ e, loadComposeMerged fs specs = .error e) := by
  refine ⟨?_, ?_, ?_, ?_⟩
  · intro fs p h
    unfold loadYamlFile
    rw [h]
  · intro fs p h
    unfold loadYamlFile
    rw [h]
  · intro fs p h
    unfold loadYamlFile
    rw [h]
  · intro fs specs rel hmem hbad
    obtain ⟨e, he⟩ := composeMergeGo_error fs (orderedComposeFiles fs specs)
      (.map []) true ⟨rel, hmem, hbad⟩
    exact ⟨e, by simp [loadComposeMerged, Bind.bind, Except.bind, he]⟩

/-- Witness for the amended C2: the unreadable `locked.yml` stands second
in the merge order, after the good `b.yml`, and the merge still aborts;
the unparsable `a.yml` aborts it from the first position. -/
theorem claim_C2_amended_witness :
    loadYamlFile fsBad "nope.yml" = .ok (.map []) ∧
      loadYamlFile fsBad "locked.yml" = .error .ioError ∧
      loadYamlFile fsBad "a.yml" = .error .yamlError ∧
      ("locked.yml" ∈ orderedComposeFiles fsBad ["b.yml", "locked.yml"] ∧
        ∃ e, loadComposeMerged fsBad ["b.yml", "locked.yml"] = .error e) := by
  have hmem : "locked.yml" ∈ orderedComposeFiles fsBad ["b.yml", "locked.yml"] := by
    rw [show orderedComposeFiles fsBad ["b.yml", "locked.yml"] =
      ["b.yml", "locked.yml"] from rfl]
    simp
  exact ⟨claim_C2_amended.1 fsBad "nope.yml" rfl,
    claim_C2_amended.2.1 fsBad "locked.yml" rfl,
    claim_C2_amended.2.2.1 fsBad "a.yml" rfl,
    hmem,
    claim_C2_amended.2.2.2 fsBad ["b.yml", "locked.yml"] "locked.yml" hmem (Or.inl rfl)⟩

/-! ### C7: the merged topology -/

lemma pyCharListLe_total : ∀ (x y : List Char),
    pyCharListLe x y = true ∨ pyCharListLe y x = true := by
  intro x
  induction x with
  | nil => intro y; left; rfl
  | cons a as ih =>
    intro y
    cases y with
    | nil => right; rfl
    | cons b bs =>
      by_cases hab : a.toNat < b.toNat
      · left; simp [pyCharListLe, hab]
      · by_cases hba : b.toNat < a.toNat
        · right; simp [pyCharListLe, hba]
        · rcases ih bs with h | h
          · left; simp [pyCharListLe, hab, hba, h]
          · right; simp [pyCharListLe, hab, hba, h]

lemma pyCharListLe_trans : ∀ (x y z : List Char),
    pyCharListLe x y = true → pyCharListLe y z = true →
    pyCharListLe x z = true := by
  intro x
  induction x with
  | nil => intro y z _ _; rfl
  | cons a as ih =>
    intro y z hxy hyz
    cases y with
    | nil => simp [pyCharListLe] at hxy
    | cons b bs =>
      cases z with
      | nil => simp [pyCharListLe] at hyz
      | cons c cs =>
        simp only [pyCharListLe] at hxy hyz ⊢
        split at hxy
        · next hab =>
          split
          · rfl
          · next hac =>
            split
            · next hca =>
              split at hyz
              · next hbc => omega
              · next hbc =>
                split at hyz
                · simp at hyz
                · next hcb => omega
            · next hca =>
              split at hyz
              · next hbc => omega
              · next hbc =>
                split at hyz
                · simp at hyz
                · next hcb => omega
        · next hab =>
          split at hxy
          · simp at hxy
          · next hba =>
            split at hyz
            · next hbc =>
              split
              · rfl
              · next hac => split <;> omega
            · next hbc =>
              split at hyz
              · simp at hyz
              · next hcb =>
                split
                · rfl
                · next hac =>
                  split
                  · omega
                  · exact ih bs cs hxy hyz

instance pyStrLeIsTotal : IsTotal String (fun a b => pyStrLe a b = true) :=
  ⟨fun a b => pyCharListLe_total a.data b.data⟩

instance pyStrLeIsTrans : IsTrans String (fun a b => pyStrLe a b = true) :=
  ⟨fun a b c => pyCharListLe_trans a.data b.data c.data⟩

lemma dedupKeepFirstAux_sublist :
    ∀ (l seen : List String), List.Sublist (dedupKeepFirstAux seen l) l := by
  intro l
  induction l with
  | nil => intro seen; simp [dedupKeepFirstAux]
  | cons x xs ih =>
    intro seen
    simp only [dedupKeepFirstAux]
    split
    · exact (ih seen).cons x
    · exact (ih (x :: seen)).cons₂ x

lemma dedupKeepFirstAux_mem_iff :
    ∀ (l seen : List String) (x : String),
      x ∈ dedupKeepFirstAux seen l ↔ (x ∈ l ∧ x ∉ seen) := by
  intro l
  induction l with
  | nil => intro seen x; simp [dedupKeepFirstAux]
  | cons y ys ih =>
    intro seen x
    simp only [dedupKeepFirstAux]
    split
    · next hy =>
      rw [ih seen x]
      constructor
      · rintro ⟨h1, h2⟩; exact ⟨by simp [h1], h2⟩
      · rintro ⟨h1, h2⟩
        refine ⟨?_, h2⟩
        rcases List.mem_cons.mp h1 with h | h
        · subst h; exact absurd (by simpa using hy) h2
        · exact h
    · next hy =>
      have hy2 : y ∉ seen := by simpa using hy
      constructor
      · intro h
        rcases List.mem_cons.mp h with h | h
        · subst h; exact ⟨by simp, hy2⟩
        · obtain ⟨h1, h2⟩ := (ih (y :: seen) x).mp h
          exact ⟨by simp [h1], fun hc => h2 (by simp [hc])⟩
      · rintro ⟨h1, h2⟩
        rcases List.mem_cons.mp h1 with h | h
        · subst h; simp
        · by_cases hxy : x = y
          · subst hxy; simp
          · refine List.mem_cons.mpr (Or.inr ((ih (y :: seen) x).mpr ⟨h, ?_⟩))
            intro hc
            rcases List.mem_cons.mp hc with hc | hc
            · exact hxy hc
            · exact h2 hc

lemma dedupKeepFirstAux_nodup :
    ∀ (l seen : List String), (dedupKeepFirstAux seen l).Nodup := by
  intro l
  induction l with
  | nil => intro seen; simp [dedupKeepFirstAux]
  | cons x xs ih =>
    intro seen
    simp only [dedupKeepFirstAux]
    split
    · exact ih seen
    · refine List.nodup_cons.mpr ⟨?_, ih (x :: seen)⟩
      intro hc
      have := (dedupKeepFirstAux_mem_iff xs (x :: seen) x).mp hc
      exact this.2 (by simp)

lemma orderedComposeFiles_sorted (fs : FS) (specs : List String) :
    (orderedComposeFiles fs specs).Pairwise (fun a b => pyStrLe a b = true) := by
  unfold orderedComposeFiles pySortStrings dedupKeepFirst
  have hs := List.sorted_insertionSort (fun a b => pyStrLe a b = true)
    (expandSpecs fs specs)
  exact List.Pairwise.sublist (dedupKeepFirstAux_sublist _ []) hs

lemma orderedComposeFiles_nodup (fs : FS) (specs : List String) :
    (orderedComposeFiles fs specs).Nodup :=
  dedupKeepFirstAux_nodup _ []

lemma orderedComposeFiles_mem (fs : FS) (specs : List String) (x : String) :
    x ∈ orderedComposeFiles fs specs ↔ x ∈ expandSpecs fs specs := by
  unfold orderedComposeFiles dedupKeepFirst
  rw [dedupKeepFirstAux_mem_iff]
  simp only [List.not_mem_nil, not_false_iff, and_true]
  unfold pySortStrings
  exact (List.perm_insertionSort _ _).mem_iff

lemma lookup_dictSet (m : List (String × Yaml)) (k : String) (vv : Yaml)
    (k' : String) :
    (dictSet m k vv).lookup k' = if k' = k then some vv else m.lookup k' := by
  induction m with
  | nil =>
    by_cases h : k' = k
    · subst h; simp [dictSet, List.lookup]
    · simp [dictSet, List.lookup, h, beq_false_of_ne h]
  | cons p t ih =>
    obtain ⟨k0, v0⟩ := p
    by_cases h0 : k0 = k
    · subst h0
      by_cases h : k' = k0
      · subst h; simp [dictSet, List.lookup]
      · simp [dictSet, List.lookup, h, beq_false_of_ne h]
    · by_cases h : k' = k0
      · have hbe : (k' == k0) = true := beq_iff_eq.mpr h
        have hkk : ¬ k' = k := fun hc => h0 (by rw [← h]; exact hc)
        simp [dictSet, List.lookup, h0, hbe, hkk]
      · simp [dictSet, List.lookup, h0, beq_false_of_ne h, ih]

lemma lookup_mem (m : List (String × Yaml)) (k : String) (y : Yaml)
    (h : m.lookup k = some y) : (k, y) ∈ m := by
  induction m with
  | nil => simp [List.lookup] at h
  | cons p t ih =>
    obtain ⟨k0, v0⟩ := p
    by_cases hk : k = k0
    · subst hk
      simp [List.lookup] at h
      simp [h]
    · simp [List.lookup, beq_false_of_ne hk] at h
      exact List.mem_cons.mpr (Or.inr (ih h))

lemma lookup_eq_none_of_not_keys (m : List (String × Yaml)) (k : String)
    (h : k ∉ m.map Prod.fst) : m.lookup k = none := by
  induction m with
  | nil => rfl
  | cons p t ih =>
    obtain ⟨k0, v0⟩ := p
    simp only [List.map_cons, List.mem_cons] at h
    push_neg at h
    simp [List.lookup, beq_false_of_ne h.1, ih h.2]

lemma lookup_dictMerge (o : List (String × Yaml)) :
    ∀ (b : List (String × Yaml)) (k : String), (o.map Prod.fst).Nodup →
      (dictMerge b o).lookup k =
        ((o.lookup k).orElse (fun _ => b.lookup k)) := by
  induction o with
  | nil => intro b k _; simp [dictMerge, List.lookup, Option.orElse]
  | cons p t ih =>
    intro b k hnd
    obtain ⟨k0, v0⟩ := p
    simp only [List.map_cons, List.nodup_cons] at hnd
    have step : dictMerge b ((k0, v0) :: t) = dictMerge (dictSet b k0 v0) t := rfl
    rw [step, ih (dictSet b k0 v0) k hnd.2]
    by_cases hk : k = k0
    · subst hk
      rw [lookup_eq_none_of_not_keys t k hnd.1]
      simp [List.lookup, lookup_dictSet, Option.orElse]
    · simp [List.lookup, beq_false_of_ne hk, lookup_dictSet, hk, Option.orElse]

lemma mem_dictSet (m : List (String × Yaml)) (k : String) (vv : Yaml) :
    ∀ p ∈ dictSet m k vv, p ∈ m ∨ p = (k, vv) := by
  induction m with
  | nil => intro p hp; simp [dictSet] at hp; simp [hp]
  | cons q t ih =>
    obtain ⟨k0, v0⟩ := q
    intro p hp
    simp only [dictSet] at hp
    split at hp
    · rcases List.mem_cons.mp hp with h | h
      · right; simp_all
      · left; simp [h]
    · rcases List.mem_cons.mp hp with h | h
      · left; simp [h]
      · rcases ih p h with h2 | h2
        · left; simp [h2]
        · right; exact h2

/-- The pure effect of the `for name, svc in overlay.services` loop on the
`services` sub-dict. -/
def svcsFoldPure (s : List (String × Yaml)) :
    List (String × Yaml) → List (String × Yaml)
  | [] => s
  | (n, y) :: t =>
    svcsFoldPure (dictSet s n (.map (dictMerge
      ((((s.lookup n).getD (.map [])).mapOf?).getD [])
      ((y.mapOf?).getD [])))) t

lemma mergeSvcStep_ok (acc s : List (String × Yaml)) (n : String)
    (sv : List (String × Yaml))
    (hs : acc.lookup "services" = some (.map s))
    (hsv : ∀ p ∈ s, ∃ kv, p.2 = Yaml.map kv) :
    mergeSvcStep acc (n, .map sv) = .ok (dictSet acc "services" (.map (dictSet s n
      (.map (dictMerge ((((s.lookup n).getD (.map [])).mapOf?).getD []) sv))))) := by
  unfold mergeSvcStep
  rw [hs]
  cases hn : s.lookup n with
  | none => simp [hn, asMap, Bind.bind, Except.bind, Yaml.mapOf?, pure, Except.pure]
  | some y =>
    obtain ⟨kv, hkv⟩ := hsv (n, y) (lookup_mem s n y hn)
    simp only at hkv
    subst hkv
    simp [hn, asMap, Bind.bind, Except.bind, Yaml.mapOf?, pure, Except.pure]

lemma mergeSvcs_go (svcs : List (String × Yaml)) :
    ∀ (acc s : List (String × Yaml)),
    acc.lookup "services" = some (.map s) →
    (∀ p ∈ svcs, ∃ kv, p.2 = Yaml.map kv) →
    (∀ p ∈ s, ∃ kv, p.2 = Yaml.map kv) →
    ∃ m, svcs.foldlM mergeSvcStep acc = .ok m ∧
      m.lookup "services" = some (.map (svcsFoldPure s svcs)) ∧
      (∀ p ∈ svcsFoldPure s svcs, ∃ kv, p.2 = Yaml.map kv) := by
  induction svcs with
  | nil =>
    intro acc s hs _ hsv
    exact ⟨acc, rfl, by simpa [svcsFoldPure] using hs, by simpa [svcsFoldPure] using hsv⟩
  | cons nv t ih =>
    intro acc s hs hvals hsv
    obtain ⟨n, y⟩ := nv
    obtain ⟨kv, hkv⟩ := hvals (n, y) (by simp)
    simp only at hkv
    subst hkv
    have hstep := mergeSvcStep_ok acc s n kv hs hsv
    rw [List.foldlM_cons, hstep]
    have hs2 : (dictSet acc "services"
        (.map (dictSet s n (.map (dictMerge
          ((((s.lookup n).getD (.map [])).mapOf?).getD []) kv))))).lookup "services" =
        some (.map (dictSet s n (.map (dictMerge
          ((((s.lookup n).getD (.map [])).mapOf?).getD []) kv)))) := by
      rw [lookup_dictSet]
      simp
    have hsv2 : ∀ p ∈ dictSet s n (.map (dictMerge
        ((((s.lookup n).getD (.map [])).mapOf?).getD []) kv)),
        ∃ kv2, p.2 = Yaml.map kv2 := by
      intro p hp
      rcases mem_dictSet s n _ p hp with h | h
      · exact hsv p h
      · exact ⟨_, by rw [h]⟩
    obtain ⟨m, hm, hml, hmv⟩ := ih _ _ hs2 (fun p hp => hvals p (by simp [hp])) hsv2
    refine ⟨m, ?_, ?_, ?_⟩
    · simpa [Bind.bind, Except.bind] using hm
    · rw [hml]
      rfl
    · intro p hp
      apply hmv
      simpa [svcsFoldPure, Yaml.mapOf?] using hp

lemma svcsFoldPure_lookup_notmem (t : List (String × Yaml)) :
    ∀ (s : List (String × Yaml)) (name : String),
      name ∉ t.map Prod.fst →
      (svcsFoldPure s t).lookup name = s.lookup name := by
  induction t with
  | nil => intro s name _; rfl
  | cons nv t ih =>
    intro s name hname
    obtain ⟨n, y⟩ := nv
    simp only [List.map_cons, List.mem_cons] at hname
    push_neg at hname
    simp only [svcsFoldPure]
    rw [ih _ name hname.2, lookup_dictSet, if_neg hname.1]

lemma svcsFoldPure_lookup (t : List (String × Yaml)) :
    ∀ (s : List (String × Yaml)) (name : String) (osv : List (String × Yaml)),
      (t.map Prod.fst).Nodup →
      t.lookup name = some (.map osv) →
      (svcsFoldPure s t).lookup name = some (.map (dictMerge
        ((((s.lookup name).getD (.map [])).mapOf?).getD []) osv)) := by
  induction t with
  | nil => intro s name osv _ h; simp [List.lookup] at h
  | cons nv t ih =>
    intro s name osv hnd hl
    obtain ⟨n, y⟩ := nv
    simp only [List.map_cons, List.nodup_cons] at hnd
    by_cases hn : name = n
    · subst hn
      have hy : y = .map osv := by
        simpa [List.lookup] using hl
      subst hy
      simp only [svcsFoldPure]
      rw [svcsFoldPure_lookup_notmem t _ name hnd.1, lookup_dictSet, if_pos rfl]
      rfl
    · have hl2 : t.lookup name = some (.map osv) := by
        simpa [List.lookup, beq_false_of_ne hn] using hl
      simp only [svcsFoldPure]
      rw [ih _ name osv hnd.2 hl2, lookup_dictSet, if_neg hn]

/-- C7: the merged topology's file order and per-service shallow merge.
Part 1: `orderedComposeFiles` (the file order `_load_compose_and_envs`
folds over) is lexicographically sorted, duplicate-free, and holds exactly
the glob-expanded compose-file specs. Part 2: for two compose documents
that both carry a `services` mapping whose entries are mappings,
`merge_compose_services` succeeds, returns a document whose `services`
mapping contains, for every service name present in both (overlay names
and overlay-entry field names duplicate-free), an entry in which each
top-level field is the overlay's value when the overlay entry has that
field, and the base entry's value otherwise — a wholesale per-field
overwrite with no deep merge. -/
theorem claim_C7_merge_topology :
    (∀ (fs : FS) (specs : List String),
      (orderedComposeFiles fs specs).Pairwise (fun a b => pyStrLe a b = true) ∧
      (orderedComposeFiles fs specs).Nodup ∧
      (∀ x, x ∈ orderedComposeFiles fs specs ↔ x ∈ expandSpecs fs specs)) ∧
    (∀ (b o bs os : List (String × Yaml)),
      b.lookup "services" = some (.map bs) →
      o.lookup "services" = some (.map os) →
      (∀ p ∈ bs, ∃ kv, p.2 = Yaml.map kv) →
      (∀ p ∈ os, ∃ kv, p.2 = Yaml.map kv) →
      ∃ m, mergeComposeServices (.map b) (.map o) = .ok (.map m) ∧
        ∃ ms, m.lookup "services" = some (.map ms) ∧
          ∀ (name : String) (bsv osv : List (String × Yaml)),
            (os.map Prod.fst).Nodup →
            bs.lookup name = some (.map bsv) →
            os.lookup name = some (.map osv) →
            (osv.map Prod.fst).Nodup →
            ∃ mm, ms.lookup name = some (.map mm) ∧
              ∀ f, mm.lookup f =
                (osv.lookup f).orElse (fun _ => bsv.lookup f)) := by
  constructor
  · intro fs specs
    exact ⟨orderedComposeFiles_sorted fs specs, orderedComposeFiles_nodup fs specs,
      fun x => orderedComposeFiles_mem fs specs x⟩
  · intro b o bs os hb ho hbs hos
    have honem : o ≠ [] := by
      intro hc; subst hc; simp [List.lookup] at ho
    obtain ⟨oh, ot, rfl⟩ := List.exists_cons_of_ne_nil honem
    cases os with
    | nil =>
      refine ⟨b, ?_, bs, hb, ?_⟩
      · simp [mergeComposeServices, asMap, Bind.bind, Except.bind, ho,
          Yaml.isTruthy, pure, Except.pure, List.foldlM]
      · intro name bsv osv _ _ hlo _
        simp [List.lookup] at hlo
    | cons osh ost =>
      obtain ⟨m, hfold, hml, _⟩ := mergeSvcs_go (osh :: ost) b bs hb hos hbs
      refine ⟨m, ?_, svcsFoldPure bs (osh :: ost), hml, ?_⟩
      · simp [mergeComposeServices, asMap, Bind.bind, Except.bind, ho,
          Yaml.isTruthy, pure, Except.pure, hfold]
      · intro name bsv osv hnd hlb hlo hnosv
        have hlook := svcsFoldPure_lookup (osh :: ost) bs name osv hnd hlo
        rw [hlb] at hlook
        refine ⟨dictMerge bsv osv, by simpa [Yaml.mapOf?] using hlook, ?_⟩
        intro f
        exact lookup_dictMerge osv bsv f hnosv

theorem claim_C7_merge_topology_witness :
    ∃ m, mergeComposeServices
        (.map [("services",
          .map [("svc", .map [("image", .str "old"), ("ports", .str "p")])])])
        (.map [("services", .map [("svc", .map [("image", .str "new")])])]) =
          .ok (.map m) ∧
      ∃ ms, m.lookup "services" = some (.map ms) ∧
      ∃ mm, ms.lookup "svc" = some (.map mm) ∧
        mm.lookup "image" = some (.str "new") ∧
        mm.lookup "ports" = some (.str "p") := by
  obtain ⟨m, hm, ms, hms, hper⟩ := claim_C7_merge_topology.2
    [("services", .map [("svc", .map [("image", .str "old"), ("ports", .str "p")])])]
    [("services", .map [("svc", .map [("image", .str "new")])])]
    [("svc", .map [("image", .str "old"), ("ports", .str "p")])]
    [("svc", .map [("image", .str "new")])]
    rfl rfl
    (by rintro p hp; rw [List.mem_singleton] at hp; exact ⟨_, by rw [hp]⟩)
    (by rintro p hp; rw [List.mem_singleton] at hp; exact ⟨_, by rw [hp]⟩)
  obtain ⟨mm, hmm, hf⟩ := hper "svc"
    [("image", .str "old"), ("ports", .str "p")]
    [("image", .str "new")]
    (by decide) rfl rfl (by decide)
  refine ⟨m, hm, ms, hms, mm, hmm, ?_, ?_⟩
  · rw [hf "image"]; rfl
  · rw [hf "ports"]; rfl

/-- C10: invariants of `validate_diff`'s result: `ok` is true exactly
when the violations list is empty, every returned violation carries a
non-null `file` equal to the path of one of the parsed file changes, and
every parsed file change's path was read out of a `+++ b/<path>` header
line of the input diff. -/
theorem claim_C10_violation_file_invariant (v : Validator) (d : String) :
    ((validateDiff v d).ok = true ↔ (validateDiff v d).violations = []) ∧
      (∀ vi ∈ (validateDiff v d).violations,
        ∃ ch ∈ parseUnifiedDiff d, vi.file = some ch.file) ∧
      (∀ ch ∈ parseUnifiedDiff d, ∃ l ∈ pySplitlines d,
        strStarts l "+++ " = true ∧ matchPlusFile l.data = some ch.file) := by
  refine ⟨?_, ?_, parseUnifiedDiff_origin d⟩
  · have hok : (validateDiff v d).ok = (validateDiff v d).violations.isEmpty := rfl
    rw [hok, List.isEmpty_iff]
  · intro vi hvi
    have hvi2 : vi ∈ (parseUnifiedDiff d).flatMap (perFileViolations v) := hvi
    rw [List.mem_flatMap] at hvi2
    obtain ⟨ch, hch, hvi2⟩ := hvi2
    exact ⟨ch, hch, perFileViolations_hasFile v ch vi hvi2⟩

/-- Witness for C10 at the empty policy and a concrete manifest diff: the
single violation it produces is attributed to a parsed file change. -/
theorem claim_C10_witness :
    ∃ vi ∈ (validateDiff {} c4Diff).violations,
      ∃ ch ∈ parseUnifiedDiff c4Diff, vi.file = some ch.file := by
  have hlist : (validateDiff {} c4Diff).violations =
      [{ type := "compose_blocked_db_access",
         message := "Database URL detected in environment for service 'app', which is not allowed.",
         file := some "docker-compose.yml",
         evidence := some "- DATABASE_URL=postgresql://user:pass@db:5432/app" }] := rfl
  have hmem : ({ type := "compose_blocked_db_access",
                 message := "Database URL detected in environment for service 'app', which is not allowed.",
                 file := some "docker-compose.yml",
                 evidence := some "- DATABASE_URL=postgresql://user:pass@db:5432/app" } : Violation) ∈
      (validateDiff {} c4Diff).violations := by
    rw [hlist]; exact List.mem_singleton.mpr rfl
  exact ⟨_, hmem, (claim_C10_violation_file_invariant {} c4Diff).2.1 _ hmem⟩

end Optimus
